import Mathlib

/-!
Verification of the retail-chatbot conversation backend
(`user-preferences/backend-user-preferences.py`).

Strings are modelled as lists of code points (`Str := List Nat`), with the
ASCII behaviour of the Python string operations used by the source
(`str.lower`, `str.strip`, `str.isdigit`, the regex splits and searches).
Python `float(...)` parsing is modelled exactly over the rationals for
sign/digits/fraction decimal literals; exponent, `inf`/`nan` spellings and
IEEE rounding are outside the model.
-/

namespace RetailChatbot

abbrev Str := List Nat

/-- Code points of a Lean string literal, used to transcribe the Python
string literals of the source. -/
def str (s : String) : Str := s.data.map Char.toNat

/-- The apostrophe code point (39); spliced into message texts. -/
def apos : Nat := 39

/-- A word wrapped in single quotes, as it appears inside several prompts. -/
def q (s : String) : Str := apos :: str s ++ [apos]

/-- Python whitespace for `str.strip` / `\s` (ASCII part). -/
def isWsChar (c : Nat) : Bool := c = 32 || c = 9 || c = 10 || c = 13 || c = 11 || c = 12

def isDigitChar (c : Nat) : Bool := 48 ≤ c && c ≤ 57

def isAlphaChar (c : Nat) : Bool := (65 ≤ c && c ≤ 90) || (97 ≤ c && c ≤ 122)

/-- Character class `[0-9a-zA-Z]` used by `_tokenize`. -/
def isAlnumChar (c : Nat) : Bool := isDigitChar c || isAlphaChar c

/-- Character class `[0-9a-zA-Z\-]` used by the hyphen-preserving splits. -/
def isAlnumHyphen (c : Nat) : Bool := isAlnumChar c || c = 45

/-- Regex word character `\w` (ASCII part), used for `\b` boundaries. -/
def isWordChar (c : Nat) : Bool := isAlnumChar c || c = 95

/-- ASCII `str.lower` on one code point. -/
def toLowerChar (c : Nat) : Nat := if 65 ≤ c ∧ c ≤ 90 then c + 32 else c

/-- `str.lower`. -/
def lower (s : Str) : Str := s.map toLowerChar

def stripStart (s : Str) : Str := s.dropWhile isWsChar

def stripEnd (s : Str) : Str := (s.reverse.dropWhile isWsChar).reverse

/-- `str.strip()`: drop whitespace from both ends. -/
def strip (s : Str) : Str := stripEnd (stripStart s)

/-- Fuel-driven worker for `collapseWs`; with fuel at least the length of the
list it replaces every whitespace run by one space (the fuel only makes the
recursion structural, see `collapseF_congr`). -/
def collapseF : Nat → Str → Str
  | _, [] => []
  | 0, _ :: _ => []
  | fuel + 1, c :: cs =>
    if isWsChar c then 32 :: collapseF fuel (cs.dropWhile isWsChar)
    else c :: collapseF fuel cs

/-- `re.sub(r"\s+", " ", s)`: replace every whitespace run by one space. -/
def collapseWs (s : Str) : Str := collapseF s.length s

/-- `Session._normalize_text`: strip, lowercase, collapse whitespace runs. -/
def _normalize_text (s : Str) : Str := collapseWs (lower (strip s))

/-- Fuel-driven worker for `splitRuns` (see `splitRunsF_congr`). -/
def splitRunsF (p : Nat → Bool) : Nat → Str → List Str
  | _, [] => []
  | 0, _ :: _ => []
  | fuel + 1, c :: cs =>
    if p c then (c :: cs.takeWhile p) :: splitRunsF p fuel (cs.dropWhile p)
    else splitRunsF p fuel cs

/-- `[t for t in re.split(<runs of chars failing p>, s) if t]`:
the maximal runs of characters satisfying `p`. -/
def splitRuns (p : Nat → Bool) (l : Str) : List Str := splitRunsF p l.length l

/-- `Session._tokenize`: lowercase, split on non-alphanumeric runs. -/
def _tokenize (s : Str) : List Str := splitRuns isAlnumChar (lower s)

/-- Value of a digit string (used by `int(...)` and inside `float(...)`). -/
def natOfDigits (s : Str) : Nat := s.foldl (fun acc c => acc * 10 + (c - 48)) 0

/-- Unsigned part of a Python decimal literal: `d+`, `d+.d*` or `.d+`. -/
def parseUnsigned (s : Str) : Option ℚ :=
  let ip := s.takeWhile isDigitChar
  let rest := s.dropWhile isDigitChar
  match rest with
  | [] => if ip.isEmpty then none else some ((natOfDigits ip : ℚ))
  | 46 :: frac =>
    if frac.all isDigitChar && !(ip.isEmpty && frac.isEmpty) then
      some ((natOfDigits (ip ++ frac) : ℚ) / (10 : ℚ) ^ frac.length)
    else none
  | _ => none

/-- `float(s)` on plain decimal literals, exactly, as a rational. -/
def parseDec (s : Str) : Option ℚ :=
  match s with
  | [] => none
  | c :: r =>
    if c = 43 then parseUnsigned r
    else if c = 45 then (parseUnsigned r).map (fun x => -x)
    else parseUnsigned (c :: r)

/-- `Session._is_number` (on the modelled decimal syntax). -/
def _is_number (i : Option Str) : Bool :=
  match i with
  | none => false
  | some s => (parseDec s).isSome

/-- `str.isdigit` (ASCII). -/
def isdigitStr (s : Str) : Bool := !s.isEmpty && s.all isDigitChar

def strs (l : List String) : List Str := l.map str

/-- A contraction word of the stopword corpus: `a ++ apostrophe ++ b`. -/
def ap2 (a b : String) : Str := str a ++ apos :: str b

/-- `_DOMAIN_KEEP`: the fashion keep list, transcribed from the source. -/
def _DOMAIN_KEEP : List Str := strs [
  "black","white","gray","grey","silver","charcoal","graphite","slate","navy","blue","light","dark","midnight","indigo","cyan","teal","aqua","turquoise",
  "green","olive","khaki","lime","forest","emerald","mint","brown","tan","beige","camel","chocolate","mocha","sand","taupe",
  "red","maroon","burgundy","wine","crimson","pink","blush","rose","magenta","fuchsia","purple","violet","lavender","lilac",
  "orange","rust","terracotta","coral","peach","apricot","yellow","mustard","gold","golden","cream","ivory","ecru","offwhite","off-white",
  "cotton","denim","leather","faux","suede","wool","cashmere","merino","linen","silk","satin","viscose","rayon","polyester","nylon","spandex","elastane","lyocell","tencel","modal","acrylic",
  "twill","poplin","corduroy","velvet","fleece","gabardine","down","shearling","sherpa","canvas","mesh","lace","chiffon","organza","sequin","sequins","boucle",
  "solid","plain","striped","stripes","pinstripe","pin-stripe","checks","checked","plaid","gingham","houndstooth","herringbone","jacquard","floral","paisley","abstract","geometric","animal","leopard","zebra","camouflage","camo",
  "polkadot","polka-dot","chevron","argyle","windowpane","window-pane","microcheck","micro-check","microstripe","micro-stripe",
  "ribbed","waffle","cable","quilted","matte","glossy","shiny","metallic","distressed","washed","acid","stonewashed","raw","selvedge","seersucker","brushed","waxed","garmentdyed","garment-dyed",
  "slim","skinny","regular","relaxed","loose","oversized","tapered","straight","bootcut","flare","flared","wide","baggy","cropped","fitted","boxy","athletic","tailored",
  "high","mid","low","rise","drop","waist","petite","tall","curvy","maternity","longline","long-line",
  "crew","crewneck","vneck","v-neck","scoop","boatneck","turtleneck","mockneck","henley","button","buttoned","buttons","zip","zipper","halfzip","half-zip","fullzip","full-zip",
  "collar","spread","point","buttondown","button-down","band","mandarin","shawl","lapel","notch","peak","double","single","breasted",
  "sleeve","shortsleeve","short-sleeve","longsleeve","long-sleeve","sleeveless","cap","raglan","dolman","cuff","cuffed",
  "hem","rawhem","raw-hem","curvedhem","curved-hem","splithem","split-hem","drawstring","elastic","elasticated","belt","belted","pleat","pleated","dart","yoke","hood","hooded",
  "tshirt","t-shirt","tee","shirt","oxford","polo","blouse","top","tank","camisole","sweater","jumper","hoodie","sweatshirt","cardigan",
  "jacket","blazer","coat","trench","puffer","parka","gilet","vest","overcoat","peacoat","bomber","biker","trucker","windbreaker","anorak","shacket","overshirt",
  "jeans","chinos","trousers","pants","shorts","skirt","dress","jumpsuit","playsuit","suit","suiting","sweatpants","joggers","leggings","tights","cargos","cargo","slacks",
  "sneakers","trainers","running","shoes","boots","chelsea","derby","oxford","loafer","loafers","brogue","brogues","monkstrap","monk-strap","sandals",
  "heels","flats","mules","clogs","espadrille","espadrilles","slides","flipflops","flip-flops",
  "bag","backpack","tote","crossbody","cross-body","belt","scarf","beanie","cap","hat","gloves","socks","tie","bowtie","bow-tie",
  "wallet","briefcase","duffle","duffel","satchel","watch","sunglasses",
  "casual","smart","formal","business","professional","businesscasual","business-casual","businessformal","business-formal","smartcasual","smart-casual",
  "streetwear","sporty","athleisure","athletic","athflow",
  "minimal","minimalist","minimalistic","maximalist","classic","vintage","retro",
  "modern","contemporary","chic","elegant","sophisticated","refined","elevated","polished","sleek","clean","crisp",
  "edgy","preppy","boho","bohemian","artsy","avantgarde","avant-garde","androgynous","genderneutral","gender-neutral",
  "rugged","utilitarian","utility","workwear","heritage","artisan","artisanal",
  "monochrome","monochromatic","colorblock","color-block","pastel","neon","earthy",
  "quietluxury","quiet-luxury","oldmoney","old-money","luxe","luxury",
  "normcore","gorpcore","cottagecore","balletcore","barbiecore","regencycore","darkacademia","dark-academia","mermaidcore","indiesleaze","indie","y2k","70s","80s","90s","2000s",
  "grunge","punk","goth","emo","rock","metal","techwear","cyberpunk","retro-futuristic","retrofuturistic",
  "western","cowboy","cowgirl","americana","military","safari","nautical","coastal","coastalgrandma","coastal-grandma",
  "wedding","weddingguest","wedding-guest","bridesmaid","groomsman","party","evening","office","work","weekend","holiday","vacation","travel","airport","airplane","outdoor","hiking","gym","training",
  "festival","concert","club","clubbing","nightout","night-out","datenight","date-night","date","brunch","dinner","picnic",
  "beach","pool","resort","cruise","apresski","apres-ski","ski","snowboard",
  "rainy","rainwear","winter","summer","spring","fall","autumn",
  "interview","presentation","meeting","clientmeeting","client-meeting","conference","networking","graduation","gala","cocktail","blacktie","black-tie","whitetie","white-tie",
  "commute","errands","loungewear","home","workfromhome","work-from-home","officeparty","office-party","teamdinner","team-dinner",
  "mini","midi","maxi","ankle","fulllength","full-length","knee","above","below","threequarter","three-quarter","7/8","crop","cropped","short","long",
  "lightwash","light-wash","midwash","mid-wash","darkwash","dark-wash","vintagewash","vintage-wash","rinse","rawdenim","fade","faded","whiskered","whiskering","destroyed",
  "breathable","stretch","stretchy","soft","cozy","warm","lightweight","heavyweight","midweight",
  "waterproof","water-resistant","waterrepellent","water-repellent","rainproof","windproof","insulated","lined","unlined","packable","quickdry","quick-dry","wrinklefree","wrinkle-free"]

/-- `ITEM_TYPE_TOKENS`, transcribed from the source. -/
def ITEM_TYPE_TOKENS : List Str := strs [
  "tshirt", "t-shirt", "tee", "tees", "shirt", "shirts", "oxford", "polo", "blouse", "top", "tops", "tank", "camisole",
  "sweater", "jumpers", "jumper", "hoodie", "sweatshirt", "cardigan", "jacket", "jackets", "blazer", "coat", "coats",
  "trench", "puffer", "parka", "gilet", "vest", "overcoat", "peacoat", "bomber", "biker", "trucker", "windbreaker", "anorak", "shacket", "overshirt",
  "jeans", "jean", "chinos", "trousers", "pants", "shorts", "skirt", "skirts", "dress", "dresses", "jumpsuit", "playsuit",
  "suit", "suits", "sweatpants", "joggers", "leggings", "tights", "cargos", "cargo", "slacks", "bottoms", "bottomwear",
  "sneakers", "trainers", "shoes", "boots", "chelsea", "derby", "oxford", "loafer", "loafers", "sandals",
  "heels", "flats", "mules", "clogs", "brogue", "brogues", "monkstrap", "monk-strap", "espadrille", "espadrilles", "slides", "flipflops", "flip-flops",
  "footwear",
  "bag", "backpack", "tote", "crossbody", "belt", "scarf", "beanie", "cap", "hat",
  "gloves", "socks", "tie", "bowtie", "wallet", "briefcase", "duffle", "duffel", "satchel", "watch", "sunglasses",
  "headwear", "eyewear",
  "outerwear", "underwear", "lingerie", "sleepwear", "nightwear", "swimwear", "activewear", "athleisure", "loungewear",
  "topwear"]

/-- The NLTK english stopword corpus (the external dependency required by the
source; its standard 179-word content, apostrophes spliced via `ap2`). -/
def _NLTK_STOPWORDS : List Str :=
  strs ["i","me","my","myself","we","our","ours","ourselves","you"] ++
  [ap2 "you" "re", ap2 "you" "ve", ap2 "you" "ll", ap2 "you" "d"] ++
  strs ["your","yours","yourself","yourselves","he","him","his","himself","she"] ++
  [ap2 "she" "s"] ++
  strs ["her","hers","herself","it"] ++
  [ap2 "it" "s"] ++
  strs ["its","itself","they","them","their","theirs","themselves","what","which","who","whom","this","that"] ++
  [ap2 "that" "ll"] ++
  strs ["these","those","am","is","are","was","were","be","been","being","have","has","had","having","do","does","did","doing",
    "a","an","the","and","but","if","or","because","as","until","while","of","at","by","for","with","about","against",
    "between","into","through","during","before","after","above","below","to","from","up","down","in","out","on","off",
    "over","under","again","further","then","once","here","there","when","where","why","how","all","any","both","each",
    "few","more","most","other","some","such","no","nor","not","only","own","same","so","than","too","very",
    "s","t","can","will","just","don"] ++
  [ap2 "don" "t"] ++
  strs ["should"] ++
  [ap2 "should" "ve"] ++
  strs ["now","d","ll","m","o","re","ve","y","ain","aren"] ++
  [ap2 "aren" "t"] ++ strs ["couldn"] ++ [ap2 "couldn" "t"] ++
  strs ["didn"] ++ [ap2 "didn" "t"] ++ strs ["doesn"] ++ [ap2 "doesn" "t"] ++
  strs ["hadn"] ++ [ap2 "hadn" "t"] ++ strs ["hasn"] ++ [ap2 "hasn" "t"] ++
  strs ["haven"] ++ [ap2 "haven" "t"] ++ strs ["isn"] ++ [ap2 "isn" "t"] ++
  strs ["ma","mightn"] ++ [ap2 "mightn" "t"] ++ strs ["mustn"] ++ [ap2 "mustn" "t"] ++
  strs ["needn"] ++ [ap2 "needn" "t"] ++ strs ["shan"] ++ [ap2 "shan" "t"] ++
  strs ["shouldn"] ++ [ap2 "shouldn" "t"] ++ strs ["wasn"] ++ [ap2 "wasn" "t"] ++
  strs ["weren"] ++ [ap2 "weren" "t"] ++ strs ["won"] ++ [ap2 "won" "t"] ++
  strs ["wouldn"] ++ [ap2 "wouldn" "t"]

/-- `_STOPWORDS = _NLTK_STOPWORDS - _DOMAIN_KEEP`. -/
def _STOPWORDS : List Str := _NLTK_STOPWORDS.filter (fun x => !(decide (x ∈ _DOMAIN_KEEP)))

/-- `DOMAIN_HINTS = set(_DOMAIN_KEEP) | set(ITEM_TYPE_TOKENS)`. -/
def DOMAIN_HINTS : List Str := _DOMAIN_KEEP ++ ITEM_TYPE_TOKENS

/-- `" ".join(ws)`. -/
def joinSp : List Str → Str
  | [] => []
  | [w] => w
  | w :: ws => w ++ 32 :: joinSp ws

/-- `Session._clean_description`: tokenize, drop stopwords, rejoin with spaces. -/
def _clean_description (text : Str) : Str :=
  joinSp ((_tokenize text).filter (fun t => !(decide (t ∈ _STOPWORDS))))

/-- `set(tokens_hyphen) | set(tokens_basic)` of `_has_item_type_token` /
`_has_domain_words` (the distinct tokens of both tokenizations). -/
def unionTokens (s : Str) : List Str :=
  (splitRuns isAlnumHyphen (lower s) ++ _tokenize (lower s)).dedup

/-- `Session._has_item_type_token`. -/
def _has_item_type_token (minHits : Nat) (t : Str) : Bool :=
  if t.isEmpty then false
  else minHits ≤ (unionTokens t).countP (fun x => decide (x ∈ ITEM_TYPE_TOKENS))

/-- `Session._has_domain_words`. -/
def _has_domain_words (minHits : Nat) (t : Str) : Bool :=
  if t.isEmpty then false
  else minHits ≤ (unionTokens t).countP (fun x => decide (x ∈ DOMAIN_HINTS))

/-- `Session._looks_meaningful_style`. -/
def _looks_meaningful_style (t : Str) : Bool := _has_domain_words 1 t

def nextNonWord : Str → Bool
  | [] => true
  | c :: _ => !isWordChar c

def nextIsWord : Str → Bool
  | [] => false
  | c :: _ => isWordChar c

def prevNonWord : Option Nat → Bool
  | none => true
  | some c => !isWordChar c

def prevIsWord : Option Nat → Bool
  | none => false
  | some c => isWordChar c

/-- Scan for `re.search(r"\b(and|&|plus)\b", s)`: a whole-word `and`/`plus`
(non-word or string edge on both sides), or `&` with word characters on both
sides (for `&`, `\b` demands a word character next to it). `prev` is the
character before the current position. -/
def conjScan : Option Nat → Str → Bool
  | _, [] => false
  | prev, c :: rest =>
    (prevNonWord prev &&
      (((c :: rest).take 3 = str "and" && nextNonWord ((c :: rest).drop 3)) ||
       ((c :: rest).take 4 = str "plus" && nextNonWord ((c :: rest).drop 4)))) ||
    (prevIsWord prev && c = 38 && nextIsWord rest) ||
    conjScan (some c) rest

/-- `re.search(r"\b(and|&|plus)\b", chunk, re.IGNORECASE)`: the IGNORECASE
match is performed on the lowercased text (the pattern is ASCII, and
lowercasing does not change word-character status). -/
def hasConjunction (chunk : Str) : Bool := conjScan none (lower chunk)

/-- `[chunk.strip() for chunk in user_input.split(",") if chunk.strip()]`. -/
def rawChunks (s : Str) : List Str :=
  ((splitRuns (fun c => !(c = 44)) s).map strip).filter (fun c => !c.isEmpty)

/-- The conversation states (`class Stage(Enum)`). -/
inductive Stage where
  | START
  | MODE_SELECTION
  | MODE_STYLE
  | OUTFIT_ITEMS
  | OUTFIT_OCCASION
  | OUTFIT_ITEM_DESC
  | ITEM_TYPE
  | ITEM_MATCH_WARDROBE
  | ITEM_WARDROBE_ITEMS
  | ITEM_DESC
  | BODY_HEIGHT
  | BODY_WEIGHT
  | BODY_AGE
  | COMPLETE
deriving DecidableEq, Repr

/-- `@dataclass SessionData`.  The Python dicts `descriptions`,
`descriptions_clean` are modelled as insertion-ordered association lists; the
`body` dict (fixed keys `height_cm`, `weight_kg`, `age`) as three optional
fields. -/
structure SessionData where
  mode : Option Str
  style : Option Str
  outfit_items_raw : Option Str
  outfit_items_list : List Str
  outfit_items_pending : List Str
  current_item : Option Str
  occasion : Option Str
  single_item_type : Option Str
  match_existing : Option Bool
  wardrobe_items_to_match : Option Str
  descriptions : List (Str × Str)
  body_height_cm : Option ℚ
  body_weight_kg : Option ℚ
  body_age : Option Nat
  style_clean : Option Str
  outfit_items_list_clean : List Str
  single_item_type_clean : Option Str
  wardrobe_items_to_match_clean : Option Str
  descriptions_clean : List (Str × Str)
deriving DecidableEq, Repr

/-- The dataclass defaults: every field unset / empty. -/
def initData : SessionData :=
  ⟨none, none, none, [], [], none, none, none, none, none, [], none, none, none,
   none, [], none, none, []⟩

/-- Python dict update `d[k] = v`: replace in place if the key exists,
append otherwise. -/
def dictInsert (k v : Str) : List (Str × Str) → List (Str × Str)
  | [] => [(k, v)]
  | (k2, v2) :: rest => if k2 = k then (k, v) :: rest else (k2, v2) :: dictInsert k v rest

def keysOf (d : List (Str × Str)) : List Str := d.map Prod.fst

/-- One `Session`: the current stage plus the collected data. -/
structure State where
  stage : Stage
  data : SessionData
deriving DecidableEq, Repr

/-- The payload built by `Session._payload` (the `data` snapshot, a pure view
of `SessionData`, is not duplicated here). -/
structure Payload where
  messages : List Str
  stage : Stage
  expect : Str
  choices : List Str
  done : Bool
  show_summary : Bool
deriving DecidableEq, Repr

/-- Result of one `process` call, instrumented for verification:
`accepted` is false exactly on the validation-failure (re-prompt) returns and
on the `COMPLETE` fallback; `modeWrites` counts assignments to `data.mode`
performed during the call; `wouldCrash` flags the branches where the Python
code would raise (`pop` from an empty pending list, the failed asserts). -/
structure StepResult where
  state : State
  payload : Payload
  accepted : Bool
  modeWrites : Nat
  wouldCrash : Bool
deriving DecidableEq, Repr

/-- A validation-failure return: state unchanged, re-prompt payload. -/
def reject (s : State) (messages : List Str) (expect : Str) (choices : List Str) :
    StepResult :=
  ⟨s, ⟨messages, s.stage, expect, choices, false, false⟩, false, 0, false⟩

/-- An accepting return built on the updated state (as `_payload` is invoked
after the mutation, the payload carries the new stage). -/
def accept (s' : State) (messages : List Str) (expect : Str) (choices : List Str)
    (done show_summary : Bool) (modeWrites : Nat) : StepResult :=
  ⟨s', ⟨messages, s'.stage, expect, choices, done, show_summary⟩, true, modeWrites, false⟩

/-- A branch on which the Python code raises; `s'` records the writes already
performed before the raise. -/
def crashStep (s' : State) : StepResult :=
  ⟨s', ⟨[], s'.stage, str "text", [], false, false⟩, true, 0, true⟩

/-- Python string interpolation of an optional field (`None` prints as such). -/
def optStr (o : Option Str) : Str := o.getD (str "None")

def modeChoices : List Str := [str "outfit", str "item"]

def modeSelPrompt : List Str :=
  [str "Please choose: " ++ q "outfit" ++ str " or " ++ q "item" ++ str "."]

/-- `Session._enter_mode_selection`. -/
def enterModeSelection (s : State) : StepResult :=
  accept ⟨Stage.MODE_SELECTION, s.data⟩
    [str "Hi, I" ++ apos :: str "m your shopping assistant.",
     str "Are you looking for a complete outfit or a specific item?"]
    (str "choice") modeChoices false false 0

/-- `Session._handle_mode_selection`. -/
def handleModeSelection (s : State) (i : Option Str) : StepResult :=
  match i with
  | none => reject s modeSelPrompt (str "choice") modeChoices
  | some t =>
    if t = [] ∨ lower t ∉ modeChoices then
      reject s modeSelPrompt (str "choice") modeChoices
    else
      let d' := { s.data with mode := some (lower t) }
      if lower t = str "outfit" then
        accept ⟨Stage.MODE_STYLE, d'⟩
          [str "Great! Let" ++ apos :: str "s find you an outfit. What is the style or mood you" ++ apos :: str "re looking for?"]
          (str "text") [] false false 1
      else
        accept ⟨Stage.MODE_STYLE, d'⟩
          [str "Awesome! What is the style or mood you" ++ apos :: str "re looking for?"]
          (str "text") [] false false 1

/-- `Session._handle_mode_style`. -/
def handleModeStyle (s : State) (i : Option Str) : StepResult :=
  match i with
  | none => reject s [str "Please describe a style or mood."] (str "text") []
  | some t =>
    if t = [] then reject s [str "Please describe a style or mood."] (str "text") []
    else if !(t.any isAlphaChar) then
      reject s [str "Please describe a style or mood with words (not just numbers)."] (str "text") []
    else if !(_looks_meaningful_style t) then
      reject s
        [str "That doesn" ++ apos :: str "t look like a fashion style. Try terms like " ++ q "casual" ++ str ", " ++ q "smart" ++ str ", " ++ q "minimal" ++ str ", " ++ q "streetwear" ++ str "."]
        (str "text") []
    else
      let d' := { s.data with style := some t, style_clean := some (_normalize_text t) }
      if s.data.mode = some (str "outfit") then
        accept ⟨Stage.OUTFIT_ITEMS, d'⟩
          [str "Got it! You" ++ apos :: str "re looking for a " ++ t ++ str " outfit.",
           str "What clothing items do you want to include?",
           str "Please separate items with commas (e.g., " ++ q "jeans, t-shirt, blazer" ++ str ")."]
          (str "text") [] false false 0
      else
        accept ⟨Stage.ITEM_TYPE, d'⟩
          [str "Got it! You" ++ apos :: str "re looking for a " ++ t ++ str " item.",
           str "What type of item is it? (e.g. " ++ q "jacket" ++ str ", " ++ q "sneakers" ++ str ")"]
          (str "text") [] false false 0

/-- Number of known item-type tokens in one chunk, hyphen-preserving split
with multiplicity (`matches` in `_handle_outfit_items`). -/
def chunkMatches (chunk : Str) : Nat :=
  (splitRuns isAlnumHyphen (lower chunk)).countP (fun x => decide (x ∈ ITEM_TYPE_TOKENS))

/-- `Session._handle_outfit_items`. -/
def handleOutfitItems (s : State) (i : Option Str) : StepResult :=
  match i with
  | none => reject s [str "List the clothing items separated by commas."] (str "text") []
  | some t =>
    if t = [] then
      reject s [str "List the clothing items separated by commas."] (str "text") []
    else if 44 ∉ t then
      -- single-item fallback: no comma in the input
      let chunk := strip t
      if hasConjunction chunk then
        reject s
          [str "Please separate items with commas, e.g., " ++ q "jeans, t-shirt, blazer" ++ str "."]
          (str "text") []
      else if chunkMatches chunk = 1 then
        let d' := { s.data with
          mode := some (str "item"),
          single_item_type := some chunk,
          single_item_type_clean := some (_normalize_text chunk) }
        accept ⟨Stage.ITEM_MATCH_WARDROBE, d'⟩
          [str "Looks like you" ++ apos :: str "re after a single item.",
           str "Item: " ++ chunk,
           str "Do you want it to match your current wardrobe? (yes/no)"]
          (str "choice") [str "yes", str "no"] false false 1
      else if chunkMatches chunk = 0 then
        reject s
          [str "I couldn" ++ apos :: str "t recognize a clothing item there. Try a name like " ++ q "blazer" ++ str " or list items with commas: " ++ q "jeans, t-shirt, blazer" ++ str "."]
          (str "text") []
      else
        reject s
          [str "It looks like multiple items are in the same part. Please separate them with commas, e.g., " ++ q "jeans, t-shirt, blazer" ++ str "."]
          (str "text") []
    else
      let chunks := rawChunks t
      if chunks.any (fun c => hasConjunction c || decide (2 ≤ chunkMatches c)) then
        reject s
          [str "It looks like multiple items are in the same part. Please put each item in its own comma-separated entry.",
           str "Example: " ++ q "jeans, t-shirt, blazer" ++ str " (not " ++ q "t-shirt hat" ++ str ")."]
          (str "text") []
      else
        let invalid := chunks.filter (fun c => !(_has_item_type_token 1 c))
        if invalid ≠ [] then
          reject s
            [str "I couldn" ++ apos :: str "t find a clothing item in: " ++ List.intercalate (str ", ") invalid ++ str ".",
             str "Use item names like " ++ q "jeans, t-shirt, blazer" ++ str "."]
            (str "text") []
        else if chunks = [] then
          reject s
            [str "I couldn" ++ apos :: str "t parse any items. Try something like: jeans, white t-shirt, blazer"]
            (str "text") []
        else
          let d' := { s.data with
            outfit_items_raw := some t,
            outfit_items_list := chunks,
            outfit_items_list_clean := chunks.map _normalize_text,
            outfit_items_pending := chunks }
          accept ⟨Stage.OUTFIT_OCCASION, d'⟩
            [str "Perfect! You" ++ apos :: str "re looking for an outfit with: " ++ List.intercalate (str ", ") chunks ++ str ". Is it for a specific occasion or daily wear?"]
            (str "choice") [str "specific", str "daily"] false false 0

def occasionChoices : List Str := [str "specific", str "daily"]

/-- `Session._handle_outfit_occasion`.  `occasion` and the stage are written
before the `pop(0)`; popping an empty pending list would raise. -/
def handleOutfitOccasion (s : State) (i : Option Str) : StepResult :=
  match i with
  | none =>
    reject s [str "Choose " ++ q "specific" ++ str " or " ++ q "daily" ++ str "."]
      (str "choice") occasionChoices
  | some t =>
    if t = [] ∨ lower t ∉ occasionChoices then
      reject s [str "Choose " ++ q "specific" ++ str " or " ++ q "daily" ++ str "."]
        (str "choice") occasionChoices
    else
      let d1 := { s.data with occasion := some (lower t) }
      match d1.outfit_items_pending with
      | [] => crashStep ⟨Stage.OUTFIT_ITEM_DESC, d1⟩
      | x :: rest =>
        let d' := { d1 with current_item := some x, outfit_items_pending := rest }
        accept ⟨Stage.OUTFIT_ITEM_DESC, d'⟩
          [str "Describe the " ++ x ++ str " (color, fit, etc.)."] (str "text") [] false false 0

/-- `Session._handle_outfit_item_desc`.  The source asserts
`current_item is not None` before storing the description. -/
def handleOutfitItemDesc (s : State) (i : Option Str) : StepResult :=
  let curName := optStr s.data.current_item
  match i with
  | none => reject s [str "Please describe the " ++ curName ++ str "."] (str "text") []
  | some t =>
    if t = [] then reject s [str "Please describe the " ++ curName ++ str "."] (str "text") []
    else if !(_has_domain_words 1 t) then
      reject s
        [str "Please include fashion details for the " ++ curName ++ str " (e.g., color, material, fit like " ++ q "navy, slim, cotton" ++ str ")."]
        (str "text") []
    else
      match s.data.current_item with
      | none => crashStep s
      | some cur =>
        let d1 := { s.data with
          descriptions := dictInsert cur t s.data.descriptions,
          descriptions_clean := dictInsert cur (_clean_description t) s.data.descriptions_clean }
        match d1.outfit_items_pending with
        | x :: rest =>
          let d' := { d1 with current_item := some x, outfit_items_pending := rest }
          accept ⟨Stage.OUTFIT_ITEM_DESC, d'⟩
            [str "Great. Next item: describe the " ++ x ++ str "."] (str "text") [] false false 0
        | [] =>
          accept ⟨Stage.BODY_HEIGHT, d1⟩
            [str "Thanks. Lastly, your height (in cm)?"] (str "text") [] false false 0

/-- `Session._handle_item_type`. -/
def handleItemType (s : State) (i : Option Str) : StepResult :=
  match i with
  | none => reject s [str "What type of item is it?"] (str "text") []
  | some t =>
    if t = [] then reject s [str "What type of item is it?"] (str "text") []
    else if !(_has_item_type_token 1 t) then
      reject s
        [str "Please name a clothing item (e.g., " ++ q "jacket" ++ str ", " ++ q "sneakers" ++ str ", " ++ q "jeans" ++ str ")."]
        (str "text") []
    else
      let d' := { s.data with
        single_item_type := some t,
        single_item_type_clean := some (_normalize_text t) }
      accept ⟨Stage.ITEM_MATCH_WARDROBE, d'⟩
        [str "Do you want it to match your current wardrobe? (yes/no)"]
        (str "choice") [str "yes", str "no"] false false 0

def yesNoChoices : List Str := [str "yes", str "no"]

/-- `Session._handle_item_match`. -/
def handleItemMatch (s : State) (i : Option Str) : StepResult :=
  match i with
  | none =>
    reject s [str "Please answer " ++ q "yes" ++ str " or " ++ q "no" ++ str "."]
      (str "choice") yesNoChoices
  | some t =>
    if t = [] ∨ lower t ∉ yesNoChoices then
      reject s [str "Please answer " ++ q "yes" ++ str " or " ++ q "no" ++ str "."]
        (str "choice") yesNoChoices
    else
      let d' := { s.data with match_existing := some (lower t = str "yes") }
      if lower t = str "yes" then
        accept ⟨Stage.ITEM_WARDROBE_ITEMS, d'⟩
          [str "Which items in your wardrobe would you like to match the " ++ optStr d'.single_item_type ++ str " with? (e.g. " ++ q "dark jeans, white shirt, brown belt" ++ str ")"]
          (str "text") [] false false 0
      else
        accept ⟨Stage.ITEM_DESC, d'⟩
          [str "Describe the " ++ optStr d'.single_item_type ++ str " (color, material, fit, etc.)."]
          (str "text") [] false false 0

/-- `Session._handle_item_wardrobe_items`. -/
def handleItemWardrobeItems (s : State) (i : Option Str) : StepResult :=
  match i with
  | none =>
    reject s
      [str "Please list the wardrobe items you" ++ apos :: str "d like to match the " ++ optStr s.data.single_item_type ++ str " with."]
      (str "text") []
  | some t =>
    if t = [] then
      reject s
        [str "Please list the wardrobe items you" ++ apos :: str "d like to match the " ++ optStr s.data.single_item_type ++ str " with."]
        (str "text") []
    else if !(_has_domain_words 1 t) then
      reject s
        [str "That looks a bit vague. Please list wardrobe items with fashion terms (e.g., " ++ q "dark jeans, white oxford shirt, brown belt" ++ str ")."]
        (str "text") []
    else
      let d' := { s.data with
        wardrobe_items_to_match := some t,
        wardrobe_items_to_match_clean := some (_normalize_text t) }
      accept ⟨Stage.ITEM_DESC, d'⟩
        [str "Great! Now describe the " ++ optStr d'.single_item_type ++ str " you" ++ apos :: str "re looking for that will match with: " ++ t]
        (str "text") [] false false 0

/-- `Session._handle_item_desc`.  The source asserts
`single_item_type is not None` before storing the description. -/
def handleItemDesc (s : State) (i : Option Str) : StepResult :=
  match i with
  | none =>
    reject s [str "Please describe the " ++ optStr s.data.single_item_type ++ str "."]
      (str "text") []
  | some t =>
    if t = [] then
      reject s [str "Please describe the " ++ optStr s.data.single_item_type ++ str "."]
        (str "text") []
    else if !(_has_domain_words 1 t) then
      reject s
        [str "This looks suspicious. Please include fashion details for the " ++ optStr s.data.single_item_type ++ str " (e.g., color, material, fit like " ++ q "black leather, slim, cropped" ++ str ")."]
        (str "text") []
    else
      match s.data.single_item_type with
      | none => crashStep s
      | some ty =>
        let d' := { s.data with
          descriptions := dictInsert ty t s.data.descriptions,
          descriptions_clean := dictInsert ty (_clean_description t) s.data.descriptions_clean }
        accept ⟨Stage.BODY_HEIGHT, d'⟩ [str "Height (in cm)?"] (str "text") [] false false 0

/-- `Session._handle_body_height`. -/
def handleBodyHeight (s : State) (i : Option Str) : StepResult :=
  match i with
  | none => reject s [str "Enter a numeric height in cm."] (str "text") []
  | some t =>
    match parseDec t with
    | none => reject s [str "Enter a numeric height in cm."] (str "text") []
    | some h =>
      if ¬(100 ≤ h ∧ h ≤ 250) then
        reject s [str "Enter a height between 100 and 250 cm."] (str "text") []
      else
        accept ⟨Stage.BODY_WEIGHT, { s.data with body_height_cm := some h }⟩
          [str "Weight (in kg)?"] (str "text") [] false false 0

/-- `Session._handle_body_weight`. -/
def handleBodyWeight (s : State) (i : Option Str) : StepResult :=
  match i with
  | none => reject s [str "Enter a numeric weight in kg."] (str "text") []
  | some t =>
    match parseDec t with
    | none => reject s [str "Enter a numeric weight in kg."] (str "text") []
    | some w =>
      if ¬(30 ≤ w ∧ w ≤ 300) then
        reject s [str "Enter a weight between 30 and 300 kg."] (str "text") []
      else
        accept ⟨Stage.BODY_AGE, { s.data with body_weight_kg := some w }⟩
          [str "Age?"] (str "text") [] false false 0

/-- `Session._handle_body_age`. -/
def handleBodyAge (s : State) (i : Option Str) : StepResult :=
  match i with
  | none => reject s [str "Enter age as an integer."] (str "text") []
  | some t =>
    if !(isdigitStr t) then reject s [str "Enter age as an integer."] (str "text") []
    else
      let age := natOfDigits t
      if ¬(1 ≤ age ∧ age ≤ 120) then
        reject s [str "Enter an age between 1 and 120."] (str "text") []
      else
        accept ⟨Stage.COMPLETE, { s.data with body_age := some age }⟩
          [str "Perfect! I have all the information I need. Generating your personalized recommendations..."]
          (str "text") [] true true 0

/-- `Session.process`: trim the input, dispatch on the current stage; the
fallback (only `COMPLETE` reaches it) returns the fixed session-complete
payload without touching the state. -/
def process (s : State) (input : Option Str) : StepResult :=
  let i := input.map strip
  match s.stage with
  | Stage.START => enterModeSelection s
  | Stage.MODE_SELECTION => handleModeSelection s i
  | Stage.MODE_STYLE => handleModeStyle s i
  | Stage.OUTFIT_ITEMS => handleOutfitItems s i
  | Stage.OUTFIT_OCCASION => handleOutfitOccasion s i
  | Stage.OUTFIT_ITEM_DESC => handleOutfitItemDesc s i
  | Stage.ITEM_TYPE => handleItemType s i
  | Stage.ITEM_MATCH_WARDROBE => handleItemMatch s i
  | Stage.ITEM_WARDROBE_ITEMS => handleItemWardrobeItems s i
  | Stage.ITEM_DESC => handleItemDesc s i
  | Stage.BODY_HEIGHT => handleBodyHeight s i
  | Stage.BODY_WEIGHT => handleBodyWeight s i
  | Stage.BODY_AGE => handleBodyAge s i
  | Stage.COMPLETE =>
    ⟨s, ⟨[str "Session complete."], s.stage, str "text", [], true, false⟩, false, 0, false⟩

/-- A fresh `Session()`. -/
def initState : State := ⟨Stage.START, initData⟩

/-- The state after a sequence of `process` calls. -/
def runState (s : State) : List (Option Str) → State
  | [] => s
  | i :: is => runState (process s i).state is

/-- Number of returned payloads carrying `show_summary=true` along a run. -/
def countShowSummary (s : State) : List (Option Str) → Nat
  | [] => 0
  | i :: is =>
    (if (process s i).payload.show_summary then 1 else 0) +
      countShowSummary (process s i).state is

/-- Total number of assignments to `data.mode` along a run. -/
def totalModeWrites (s : State) : List (Option Str) → Nat
  | [] => 0
  | i :: is => (process s i).modeWrites + totalModeWrites (process s i).state is

/-- Number of steps on which `outfit_items_pending` goes from non-empty to
empty along a run. -/
def emptyTransitions (s : State) : List (Option Str) → Nat
  | [] => 0
  | i :: is =>
    (if s.data.outfit_items_pending ≠ [] ∧
        (process s i).state.data.outfit_items_pending = [] then 1 else 0) +
      emptyTransitions (process s i).state is

/-- Upper bound, per stage, on the number of `mode` assignments that any run
starting in that stage can still perform. -/
def modeBudget : Stage → Nat
  | Stage.START => 2
  | Stage.MODE_SELECTION => 2
  | Stage.MODE_STYLE => 1
  | Stage.OUTFIT_ITEMS => 1
  | _ => 0

/-- The stages a run is confined to once `outfit_items_pending` has been
drained. -/
def pendingDone (st : Stage) : Prop :=
  st = Stage.OUTFIT_ITEM_DESC ∨ st = Stage.BODY_HEIGHT ∨ st = Stage.BODY_WEIGHT ∨
    st = Stage.BODY_AGE ∨ st = Stage.COMPLETE

/-- The inductive session invariant: at OUTFIT_OCCASION the pending queue is
the full (non-empty) item list; at OUTFIT_ITEM_DESC the list splits into
already-described items, the current item, and the pending rest; in the
single-item stages `single_item_type` is set. -/
def SessionInv (s : State) : Prop :=
  (s.stage = Stage.OUTFIT_OCCASION →
    s.data.outfit_items_pending = s.data.outfit_items_list ∧
      s.data.outfit_items_list ≠ []) ∧
  (s.stage = Stage.OUTFIT_ITEM_DESC →
    ∃ done cur rest, s.data.outfit_items_list = done ++ cur :: rest ∧
      s.data.current_item = some cur ∧ s.data.outfit_items_pending = rest ∧
      ∀ x ∈ done, x ∈ keysOf s.data.descriptions) ∧
  ((s.stage = Stage.ITEM_MATCH_WARDROBE ∨ s.stage = Stage.ITEM_WARDROBE_ITEMS ∨
      s.stage = Stage.ITEM_DESC) → s.data.single_item_type ≠ none)

/-! ### Frame lemmas: non-accepting calls do not change the state -/

theorem not_accepted_state_eq (s : State) (i : Option Str) :
    (process s i).accepted = false → (process s i).state = s := by
  obtain ⟨st, d⟩ := s
  cases st <;> rcases i with _ | t <;>
    simp only [process, Option.map_none', Option.map_some', enterModeSelection,
      handleModeSelection, handleModeStyle, handleOutfitItems, handleOutfitOccasion,
      handleOutfitItemDesc, handleItemType, handleItemMatch, handleItemWardrobeItems,
      handleItemDesc, handleBodyHeight, handleBodyWeight, handleBodyAge] <;>
    intro h <;>
    (try rfl) <;>
    (repeat' split at h) <;>
    simp_all [accept, reject, crashStep] <;>
    (repeat' split) <;>
    rfl

/-! ### Character-level facts -/

theorem toLowerChar_idem (c : Nat) : toLowerChar (toLowerChar c) = toLowerChar c := by
  unfold toLowerChar
  by_cases h : 65 ≤ c ∧ c ≤ 90
  · rw [if_pos h, if_neg (by omega)]
  · rw [if_neg h, if_neg h]

theorem isWsChar_toLowerChar (c : Nat) : isWsChar (toLowerChar c) = isWsChar c := by
  unfold toLowerChar
  by_cases h : 65 ≤ c ∧ c ≤ 90
  · rw [if_pos h]
    have h1 : isWsChar (c + 32) = false := by
      simp only [isWsChar, Bool.or_eq_false_iff, decide_eq_false_iff_not]
      omega
    have h2 : isWsChar c = false := by
      simp only [isWsChar, Bool.or_eq_false_iff, decide_eq_false_iff_not]
      omega
    rw [h1, h2]
  · rw [if_neg h]

theorem toLowerChar_space : toLowerChar 32 = 32 := rfl

theorem isWsChar_space : isWsChar 32 = true := rfl

theorem lower_lower (s : Str) : lower (lower s) = lower s := by
  simp only [lower, List.map_map]
  exact List.map_congr_left fun c _ => toLowerChar_idem c

/-! ### Facts about `strip` -/

theorem stripEnd_eq_rdropWhile (s : Str) : stripEnd s = s.rdropWhile isWsChar := rfl

theorem dropWhile_eq_self_of_head {p : Nat → Bool} :
    ∀ {l : Str}, (∀ c, l.head? = some c → p c = false) → l.dropWhile p = l
  | [], _ => rfl
  | c :: r, h => by
    rw [List.dropWhile_cons_of_neg]
    simp [h c rfl]

theorem head_stripStart_not_ws (s : Str) (c : Nat) (h : (stripStart s).head? = some c) :
    isWsChar c = false := by
  have hh := List.head?_dropWhile_not isWsChar s
  rw [stripStart] at h
  rw [h] at hh
  exact hh

/-- The head of `strip s` is not whitespace. -/
theorem head_strip_not_ws (s : Str) (c : Nat) (h : (strip s).head? = some c) :
    isWsChar c = false := by
  have hpre : strip s <+: stripStart s := by
    rw [strip, stripEnd_eq_rdropWhile]
    exact List.rdropWhile_prefix _ _
  obtain ⟨t, ht⟩ := hpre
  apply head_stripStart_not_ws s c
  rw [← ht]
  rcases hs : strip s with _ | ⟨a, r⟩
  · rw [hs] at h
    simp at h
  · rw [hs] at h
    simpa using h

/-- The last character of `strip s` is not whitespace. -/
theorem getLast_strip_not_ws (s : Str) (c : Nat) (h : (strip s).getLast? = some c) :
    isWsChar c = false := by
  have hne : strip s ≠ [] := by intro he; rw [he] at h; cases h
  have hlast := List.rdropWhile_last_not isWsChar (stripStart s) (by
    rw [strip, stripEnd_eq_rdropWhile] at hne
    exact hne)
  rw [List.getLast?_eq_getLast _ hne] at h
  injection h with h
  rw [← h]
  simpa using hlast

theorem stripStart_eq_self_of_head {l : Str}
    (h : ∀ c, l.head? = some c → isWsChar c = false) : stripStart l = l :=
  dropWhile_eq_self_of_head h

theorem stripEnd_eq_self_of_getLast {l : Str}
    (h : ∀ c, l.getLast? = some c → isWsChar c = false) : stripEnd l = l := by
  rw [stripEnd_eq_rdropWhile]
  refine List.rdropWhile_eq_self_iff.mpr fun hl' => ?_
  have := h (l.getLast hl') (List.getLast?_eq_getLast l hl')
  simp [this]

/-- `strip` is idempotent (`s.strip().strip() == s.strip()`). -/
theorem strip_strip (s : Str) : strip (strip s) = strip s := by
  have h1 : stripStart (strip s) = strip s :=
    stripStart_eq_self_of_head (head_strip_not_ws s)
  rw [strip, h1]
  exact stripEnd_eq_self_of_getLast (getLast_strip_not_ws s)

/-! ### Facts about `collapseWs`; idempotence of `_normalize_text` -/

/-- A well-founded strong induction principle on the length of a string. -/
theorem str_length_induction {motive : Str → Prop}
    (ind : ∀ l : Str, (∀ m : Str, m.length < l.length → motive m) → motive l)
    (l : Str) : motive l := by
  have H : ∀ n (m : Str), m.length ≤ n → motive m := by
    intro n
    induction n with
    | zero => exact fun m hm => ind m (fun k hk => by omega)
    | succ n ih => exact fun m hm => ind m (fun k hk => ih k (by omega))
  exact H l.length l le_rfl

/-- The result of `collapseF` does not depend on the fuel, as long as the
fuel covers the length of the list. -/
theorem collapseF_congr :
    ∀ (f1 : Nat) (l : Str) (f2 : Nat), l.length ≤ f1 → l.length ≤ f2 →
      collapseF f1 l = collapseF f2 l := by
  intro f1
  induction f1 with
  | zero =>
    intro l f2 h1 h2
    rcases l with _ | ⟨c, cs⟩
    · cases f2 <;> rfl
    · simp at h1
  | succ f ih =>
    intro l f2 h1 h2
    rcases l with _ | ⟨c, cs⟩
    · cases f2 <;> rfl
    · rcases f2 with _ | f2'
      · simp at h2
      · show (if isWsChar c then 32 :: collapseF f (cs.dropWhile isWsChar)
            else c :: collapseF f cs) =
          (if isWsChar c then 32 :: collapseF f2' (cs.dropWhile isWsChar)
            else c :: collapseF f2' cs)
        have hlen : (cs.dropWhile isWsChar).length ≤ cs.length :=
          (List.dropWhile_sublist _).length_le
        simp only [List.length_cons] at h1 h2
        by_cases hc : isWsChar c
        · simp only [if_pos hc]
          rw [ih (cs.dropWhile isWsChar) f2' (by omega) (by omega)]
        · simp only [if_neg hc]
          rw [ih cs f2' (by omega) (by omega)]

theorem collapseWs_nil : collapseWs [] = [] := rfl

theorem collapseWs_cons_ws {c : Nat} (cs : Str) (h : isWsChar c = true) :
    collapseWs (c :: cs) = 32 :: collapseWs (cs.dropWhile isWsChar) := by
  show collapseF (cs.length + 1) (c :: cs) = 32 :: collapseF (cs.dropWhile isWsChar).length (cs.dropWhile isWsChar)
  show (if isWsChar c then 32 :: collapseF cs.length (cs.dropWhile isWsChar)
      else c :: collapseF cs.length cs) = _
  rw [if_pos h,
    collapseF_congr cs.length (cs.dropWhile isWsChar) (cs.dropWhile isWsChar).length
      (List.dropWhile_sublist _).length_le le_rfl]

theorem collapseWs_cons_not {c : Nat} (cs : Str) (h : isWsChar c = false) :
    collapseWs (c :: cs) = c :: collapseWs cs := by
  show collapseF (cs.length + 1) (c :: cs) = c :: collapseF cs.length cs
  show (if isWsChar c then 32 :: collapseF cs.length (cs.dropWhile isWsChar)
      else c :: collapseF cs.length cs) = _
  rw [if_neg (by simp [h])]

theorem collapseWs_ne_nil {m : Str} (h : m ≠ []) : collapseWs m ≠ [] := by
  rcases m with _ | ⟨c, cs⟩
  · exact absurd rfl h
  · rcases hc : isWsChar c
    · rw [collapseWs_cons_not _ hc]; simp
    · rw [collapseWs_cons_ws _ hc]; simp

theorem head_dropWhile_ws (l : Str) (c : Nat)
    (h : (l.dropWhile isWsChar).head? = some c) : isWsChar c = false :=
  head_stripStart_not_ws l c h

theorem head_collapseWs_not_ws {m : Str}
    (hm : ∀ c, m.head? = some c → isWsChar c = false) :
    ∀ c, (collapseWs m).head? = some c → isWsChar c = false := by
  rcases m with _ | ⟨a, t⟩
  · intro c hc
    rw [collapseWs_nil] at hc
    cases hc
  · intro c hc
    have ha : isWsChar a = false := hm a rfl
    rw [collapseWs_cons_not _ ha] at hc
    injection hc with hc
    rwa [← hc]

theorem getLast_dropWhile_ws {cs : Str}
    (hcs : ∀ c, cs.getLast? = some c → isWsChar c = false) (hne : cs ≠ []) :
    cs.dropWhile isWsChar ≠ [] ∧
      (cs.dropWhile isWsChar).getLast? = cs.getLast? := by
  have hne2 : cs.dropWhile isWsChar ≠ [] := by
    intro hempty
    have hall : ∀ x ∈ cs, isWsChar x = true := List.dropWhile_eq_nil_iff.mp hempty
    have h1 := hcs (cs.getLast hne) (List.getLast?_eq_getLast cs hne)
    have h2 := hall (cs.getLast hne) (List.getLast_mem hne)

    rw [h1] at h2
    cases h2
  refine ⟨hne2, ?_⟩
  obtain ⟨t, ht⟩ := List.dropWhile_suffix (l := cs) isWsChar
  conv_rhs => rw [← ht]
  rw [List.getLast?_append]
  rcases hd : (cs.dropWhile isWsChar).getLast? with _ | a
  · exact absurd (List.getLast?_eq_getLast _ hne2 ▸ hd) (by simp)
  · simp [Option.or]

theorem getLast_collapseWs_not_ws :
    ∀ (m : Str), (∀ c, m.getLast? = some c → isWsChar c = false) →
      ∀ c, (collapseWs m).getLast? = some c → isWsChar c = false := by
  intro m
  induction m using str_length_induction with
  | ind l ih =>
    rcases l with _ | ⟨a, cs⟩
    · intro _ c hc
      rw [collapseWs_nil] at hc
      cases hc
    · intro hm c hc
      by_cases ha : isWsChar a = true
      · have hcs : cs ≠ [] := by
          rintro rfl
          have := hm a rfl
          rw [ha] at this
          cases this
        have hm2 : ∀ c, cs.getLast? = some c → isWsChar c = false := by
          intro c hc2
          apply hm
          rcases cs with _ | ⟨b, u⟩
          · exact absurd rfl hcs
          · rwa [List.getLast?_cons_cons]
        obtain ⟨hne2, heq⟩ := getLast_dropWhile_ws hm2 hcs
        rw [collapseWs_cons_ws _ ha] at hc
        have hcol : collapseWs (cs.dropWhile isWsChar) ≠ [] := collapseWs_ne_nil hne2
        apply ih (cs.dropWhile isWsChar)
          (Nat.lt_succ_of_le (List.dropWhile_sublist _).length_le)
          (fun c hc2 => hm2 c (heq ▸ hc2)) c
        rcases hcol2 : collapseWs (cs.dropWhile isWsChar) with _ | ⟨b, u⟩
        · exact absurd hcol2 hcol
        · rw [hcol2] at hc
          rw [List.getLast?_cons_cons] at hc
          exact hc
      · have ha' : isWsChar a = false := by simpa using ha
        rw [collapseWs_cons_not _ ha'] at hc
        rcases hcs : cs with _ | ⟨b, u⟩
        · subst hcs
          rw [collapseWs_nil] at hc
          simp only [List.getLast?_singleton] at hc
          injection hc with hc
          rw [← hc]
          exact hm a (by simp)
        · subst hcs
          have hm2 : ∀ c, (b :: u).getLast? = some c → isWsChar c = false := by
            intro c hc2
            apply hm
            rwa [List.getLast?_cons_cons]
          have hcol : collapseWs (b :: u) ≠ [] := collapseWs_ne_nil (by simp)
          apply ih (b :: u) (Nat.lt_succ_self _) hm2 c
          rcases hcol2 : collapseWs (b :: u) with _ | ⟨e, v⟩
          · exact absurd hcol2 hcol
          · rw [hcol2] at hc
            rw [List.getLast?_cons_cons] at hc
            exact hc

theorem collapseWs_idem : ∀ l : Str, collapseWs (collapseWs l) = collapseWs l := by
  intro l
  induction l using str_length_induction with
  | ind l ih =>
    rcases l with _ | ⟨c, cs⟩
    · simp [collapseWs_nil]
    · by_cases h : isWsChar c = true
      · rw [collapseWs_cons_ws _ h, collapseWs_cons_ws _ isWsChar_space,
          dropWhile_eq_self_of_head
            (head_collapseWs_not_ws (head_dropWhile_ws cs)),
          ih (cs.dropWhile isWsChar)
            (Nat.lt_succ_of_le (List.dropWhile_sublist _).length_le)]
      · have h' : isWsChar c = false := by simpa using h
        rw [collapseWs_cons_not _ h', collapseWs_cons_not _ h',
          ih cs (Nat.lt_succ_self _)]

theorem dropWhile_ws_lower (m : Str) :
    (lower m).dropWhile isWsChar = lower (m.dropWhile isWsChar) := by
  unfold lower
  rw [List.dropWhile_map]
  have hp : (isWsChar ∘ toLowerChar) = isWsChar := by
    funext c
    simp [Function.comp, isWsChar_toLowerChar]
  rw [hp]

theorem lower_collapseWs : ∀ l : Str, lower (collapseWs l) = collapseWs (lower l) := by
  intro l
  induction l using str_length_induction with
  | ind l ih =>
    rcases l with _ | ⟨c, cs⟩
    · simp [collapseWs_nil, lower]
    · by_cases h : isWsChar c = true
      · rw [collapseWs_cons_ws _ h]
        show 32 :: lower (collapseWs (cs.dropWhile isWsChar)) =
          collapseWs (toLowerChar c :: lower cs)
        rw [collapseWs_cons_ws _ (by rw [isWsChar_toLowerChar]; exact h),
          dropWhile_ws_lower,
          ih (cs.dropWhile isWsChar)
            (Nat.lt_succ_of_le (List.dropWhile_sublist _).length_le)]
      · have h' : isWsChar c = false := by simpa using h
        rw [collapseWs_cons_not _ h']
        show toLowerChar c :: lower (collapseWs cs) =
          collapseWs (toLowerChar c :: lower cs)
        rw [collapseWs_cons_not _ (by rw [isWsChar_toLowerChar]; exact h'),
          ih cs (Nat.lt_succ_self _)]

theorem lower_normalize (s : Str) : lower (_normalize_text s) = _normalize_text s := by
  unfold _normalize_text
  rw [lower_collapseWs, lower_lower]

theorem strip_normalize (s : Str) : strip (_normalize_text s) = _normalize_text s := by
  have hhead : ∀ c, (lower (strip s)).head? = some c → isWsChar c = false := by
    intro c hc
    unfold lower at hc
    rw [List.head?_map] at hc
    rcases hh : (strip s).head? with _ | a
    · rw [hh] at hc; cases hc
    · rw [hh] at hc
      injection hc with hc
      rw [← hc, isWsChar_toLowerChar]
      exact head_strip_not_ws s a hh
  have hlast : ∀ c, (lower (strip s)).getLast? = some c → isWsChar c = false := by
    intro c hc
    unfold lower at hc
    rw [List.getLast?_map] at hc
    rcases hh : (strip s).getLast? with _ | a
    · rw [hh] at hc; cases hc
    · rw [hh] at hc
      injection hc with hc
      rw [← hc, isWsChar_toLowerChar]
      exact getLast_strip_not_ws s a hh
  show strip (collapseWs (lower (strip s))) = _normalize_text s
  rw [strip, stripStart_eq_self_of_head (head_collapseWs_not_ws hhead)]
  exact stripEnd_eq_self_of_getLast (getLast_collapseWs_not_ws _ hlast)

/-! ### Facts about `splitRuns`, `joinSp` and `_tokenize` -/

/-- The result of `splitRunsF` does not depend on the fuel, as long as the
fuel covers the length of the list. -/
theorem splitRunsF_congr (p : Nat → Bool) :
    ∀ (f1 : Nat) (l : Str) (f2 : Nat), l.length ≤ f1 → l.length ≤ f2 →
      splitRunsF p f1 l = splitRunsF p f2 l := by
  intro f1
  induction f1 with
  | zero =>
    intro l f2 h1 h2
    rcases l with _ | ⟨c, cs⟩
    · cases f2 <;> rfl
    · simp at h1
  | succ f ih =>
    intro l f2 h1 h2
    rcases l with _ | ⟨c, cs⟩
    · cases f2 <;> rfl
    · rcases f2 with _ | f2'
      · simp at h2
      · show (if p c then (c :: cs.takeWhile p) :: splitRunsF p f (cs.dropWhile p)
            else splitRunsF p f cs) =
          (if p c then (c :: cs.takeWhile p) :: splitRunsF p f2' (cs.dropWhile p)
            else splitRunsF p f2' cs)
        have hlen : (cs.dropWhile p).length ≤ cs.length :=
          (List.dropWhile_sublist _).length_le
        simp only [List.length_cons] at h1 h2
        by_cases hc : p c
        · simp only [if_pos hc]
          rw [ih (cs.dropWhile p) f2' (by omega) (by omega)]
        · simp only [if_neg hc]
          rw [ih cs f2' (by omega) (by omega)]

theorem splitRuns_nil (p : Nat → Bool) : splitRuns p [] = [] := rfl

theorem splitRuns_cons_pos {p : Nat → Bool} {c : Nat} (cs : Str) (h : p c = true) :
    splitRuns p (c :: cs) = (c :: cs.takeWhile p) :: splitRuns p (cs.dropWhile p) := by
  show (if p c then (c :: cs.takeWhile p) :: splitRunsF p cs.length (cs.dropWhile p)
      else splitRunsF p cs.length cs) = _
  rw [if_pos h,
    splitRunsF_congr p cs.length (cs.dropWhile p) (cs.dropWhile p).length
      (List.dropWhile_sublist p).length_le le_rfl]
  rfl

theorem splitRuns_cons_neg {p : Nat → Bool} {c : Nat} (cs : Str) (h : p c = false) :
    splitRuns p (c :: cs) = splitRuns p cs := by
  show (if p c then (c :: cs.takeWhile p) :: splitRunsF p cs.length (cs.dropWhile p)
      else splitRunsF p cs.length cs) = _
  rw [if_neg (by simp [h])]
  exact splitRunsF_congr p cs.length cs cs.length le_rfl le_rfl

/-- Every token produced by `splitRuns` is a non-empty run of characters of
the input that satisfy the predicate. -/
theorem splitRuns_sound (p : Nat → Bool) :
    ∀ l : Str, ∀ t ∈ splitRuns p l, t ≠ [] ∧ ∀ c ∈ t, p c = true ∧ c ∈ l := by
  intro l
  induction l using str_length_induction with
  | ind l ih =>
    rcases l with _ | ⟨c, cs⟩
    · simp [splitRuns_nil]
    · by_cases h : p c = true
      · intro t ht
        rw [splitRuns_cons_pos _ h] at ht
        rcases List.mem_cons.mp ht with rfl | hrec
        · refine ⟨by simp, ?_⟩
          intro d hd
          rcases List.mem_cons.mp hd with rfl | hd2
          · exact ⟨h, by simp⟩
          · exact ⟨List.mem_takeWhile_imp hd2,
              List.mem_cons_of_mem _ ((List.takeWhile_prefix p).sublist.subset hd2)⟩
        · obtain ⟨hne, hall⟩ := ih (cs.dropWhile p)
            (Nat.lt_succ_of_le (List.dropWhile_sublist p).length_le) t hrec
          exact ⟨hne, fun d hd => ⟨(hall d hd).1,
            List.mem_cons_of_mem _ ((List.dropWhile_sublist p).subset (hall d hd).2)⟩⟩
      · intro t ht
        rw [splitRuns_cons_neg _ (by simpa using h)] at ht
        obtain ⟨hne, hall⟩ := ih cs (Nat.lt_succ_self _) t ht
        exact ⟨hne, fun d hd =>
          ⟨(hall d hd).1, List.mem_cons_of_mem _ (hall d hd).2⟩⟩

theorem splitRuns_all_pos {p : Nat → Bool} {w : Str} (hne : w ≠ [])
    (hall : ∀ c ∈ w, p c = true) : splitRuns p w = [w] := by
  rcases w with _ | ⟨c, cs⟩
  · exact absurd rfl hne
  · rw [splitRuns_cons_pos _ (hall c (by simp)),
      List.takeWhile_eq_self_iff.mpr (fun x hx => hall x (by simp [hx])),
      List.dropWhile_eq_nil_iff.mpr (fun x hx => hall x (by simp [hx])),
      splitRuns_nil]

theorem splitRuns_append_sep {p : Nat → Bool} {s0 : Nat} (hs : p s0 = false)
    {w r : Str} (hne : w ≠ []) (hall : ∀ c ∈ w, p c = true) :
    splitRuns p (w ++ s0 :: r) = w :: splitRuns p r := by
  rcases w with _ | ⟨c, cs⟩
  · exact absurd rfl hne
  · rw [List.cons_append, splitRuns_cons_pos _ (hall c (by simp))]
    have h1 : (cs ++ s0 :: r).takeWhile p = cs := by
      rw [List.takeWhile_append_of_pos (fun a ha => hall a (by simp [ha])),
        List.takeWhile_cons_of_neg (by simp [hs])]
      simp
    have h2 : (cs ++ s0 :: r).dropWhile p = s0 :: r := by
      rw [List.dropWhile_append_of_pos (fun a ha => hall a (by simp [ha])),
        List.dropWhile_cons_of_neg (by simp [hs])]
    rw [h1, h2, splitRuns_cons_neg _ hs]

/-- Splitting a space-join of non-empty all-`p` tokens recovers the tokens. -/
theorem splitRuns_joinSp {p : Nat → Bool} (hs : p 32 = false) :
    ∀ ts : List Str, (∀ t ∈ ts, t ≠ [] ∧ ∀ c ∈ t, p c = true) →
      splitRuns p (joinSp ts) = ts := by
  intro ts
  induction ts with
  | nil => intro _; exact splitRuns_nil p
  | cons w ws ih =>
    intro h
    rcases ws with _ | ⟨w2, rest⟩
    · show splitRuns p w = [w]
      exact splitRuns_all_pos (h w (by simp)).1 (h w (by simp)).2
    · show splitRuns p (w ++ 32 :: joinSp (w2 :: rest)) = w :: w2 :: rest
      rw [splitRuns_append_sep hs (h w (by simp)).1 (h w (by simp)).2,
        ih (fun t ht => h t (by simp [ht]))]

theorem lower_eq_self {s : Str} (h : ∀ c ∈ s, toLowerChar c = c) : lower s = s := by
  unfold lower
  have : s.map toLowerChar = s.map id := List.map_congr_left fun a ha => by simp [h a ha]
  simpa using this

/-- Characters of `_tokenize` tokens are already lowercase. -/
theorem tokenize_chars_lower {text : Str} :
    ∀ t ∈ _tokenize text, ∀ c ∈ t, toLowerChar c = c := by
  intro t ht c hc
  obtain ⟨-, hall⟩ := splitRuns_sound isAlnumChar (lower text) t ht
  have hcl : c ∈ lower text := (hall c hc).2
  unfold lower at hcl
  obtain ⟨a, -, ha⟩ := List.mem_map.mp hcl
  rw [← ha]
  exact toLowerChar_idem a

theorem lower_joinSp {ts : List Str} (h : ∀ t ∈ ts, ∀ c ∈ t, toLowerChar c = c) :
    lower (joinSp ts) = joinSp ts := by
  induction ts with
  | nil => rfl
  | cons w ws ih =>
    rcases ws with _ | ⟨w2, rest⟩
    · show lower w = w
      exact lower_eq_self (h w (by simp))
    · show lower (w ++ 32 :: joinSp (w2 :: rest)) = w ++ 32 :: joinSp (w2 :: rest)
      unfold lower
      rw [List.map_append, List.map_cons]
      show lower w ++ toLowerChar 32 :: lower (joinSp (w2 :: rest)) = _
      rw [lower_eq_self (h w (by simp)), toLowerChar_space,
        ih (fun t ht => h t (by simp [ht]))]

/-- The tokens of `_clean_description text` are exactly the stopword-filtered
tokens of `text`. -/
theorem tokenize_clean_description (text : Str) :
    _tokenize (_clean_description text) =
      (_tokenize text).filter (fun t => !(decide (t ∈ _STOPWORDS))) := by
  have hsub : ∀ t ∈ (_tokenize text).filter (fun t => !(decide (t ∈ _STOPWORDS))),
      t ∈ _tokenize text := fun t ht => List.mem_of_mem_filter ht
  have hlow : lower (joinSp ((_tokenize text).filter (fun t => !(decide (t ∈ _STOPWORDS))))) =
      joinSp ((_tokenize text).filter (fun t => !(decide (t ∈ _STOPWORDS)))) :=
    lower_joinSp (fun t ht c hc => tokenize_chars_lower t (hsub t ht) c hc)
  show splitRuns isAlnumChar (lower (joinSp _)) = _
  rw [hlow]
  apply splitRuns_joinSp (by rfl)
  intro t ht
  obtain ⟨hne, hall⟩ := splitRuns_sound isAlnumChar (lower text) t (hsub t ht)
  exact ⟨hne, fun c hc => (hall c hc).1⟩

set_option maxRecDepth 100000 in
set_option maxHeartbeats 2000000 in
/-- The item-type vocabulary never collides with a stopword that is outside
the keep list (checked by computation over the three sets). -/
theorem item_type_nltk_sub_keep :
    ∀ x ∈ _NLTK_STOPWORDS, x ∉ ITEM_TYPE_TOKENS ∨ x ∈ _DOMAIN_KEEP := by decide

/-- A domain-vocabulary word is never a stopword. -/
theorem domain_hints_not_stopword {t : Str} (h : t ∈ DOMAIN_HINTS) :
    t ∉ _STOPWORDS := by
  intro hstop
  unfold _STOPWORDS at hstop
  have hmem := List.mem_filter.mp hstop
  obtain ⟨hnltk, hkeep⟩ := hmem
  simp only [Bool.not_eq_true', decide_eq_false_iff_not] at hkeep
  unfold DOMAIN_HINTS at h
  rcases List.mem_append.mp h with h1 | h2
  · exact hkeep h1
  · rcases item_type_nltk_sub_keep t hnltk with h3 | h3
    · exact h3 h2
    · exact hkeep h3

/-! ### Facts about number parsing -/

theorem parseDec_of_isdigit {u : Str} (h : isdigitStr u = true) :
    parseDec u = some ((natOfDigits u : ℚ)) := by
  unfold isdigitStr at h
  rw [Bool.and_eq_true] at h
  obtain ⟨hne, hall⟩ := h
  rcases u with _ | ⟨c, cs⟩
  · simp at hne
  · have hc : isDigitChar c = true := List.all_eq_true.mp hall c (by simp)
    have hc48 : 48 ≤ c ∧ c ≤ 57 := by
      simpa [isDigitChar, Bool.and_eq_true, decide_eq_true_eq] using hc
    show (if c = 43 then parseUnsigned cs
        else if c = 45 then Option.map (fun x => -x) (parseUnsigned cs)
        else parseUnsigned (c :: cs)) = some ((natOfDigits (c :: cs) : ℚ))
    rw [if_neg (by omega), if_neg (by omega)]
    unfold parseUnsigned
    rw [List.takeWhile_eq_self_iff.mpr (fun x hx => List.all_eq_true.mp hall x hx),
      List.dropWhile_eq_nil_iff.mpr (fun x hx => List.all_eq_true.mp hall x hx)]
    simp

/-! ### `process` dispatch equations -/

theorem process_outfit_items (d : SessionData) (s : Str) :
    process ⟨Stage.OUTFIT_ITEMS, d⟩ (some s) =
      handleOutfitItems ⟨Stage.OUTFIT_ITEMS, d⟩ (some (strip s)) := rfl

theorem process_body_height (d : SessionData) (s : Str) :
    process ⟨Stage.BODY_HEIGHT, d⟩ (some s) =
      handleBodyHeight ⟨Stage.BODY_HEIGHT, d⟩ (some (strip s)) := rfl

theorem process_body_weight (d : SessionData) (s : Str) :
    process ⟨Stage.BODY_WEIGHT, d⟩ (some s) =
      handleBodyWeight ⟨Stage.BODY_WEIGHT, d⟩ (some (strip s)) := rfl

theorem process_body_age (d : SessionData) (s : Str) :
    process ⟨Stage.BODY_AGE, d⟩ (some s) =
      handleBodyAge ⟨Stage.BODY_AGE, d⟩ (some (strip s)) := rfl

/-! ### Handler-level lemmas for the body-measurement stages -/

theorem handleBodyHeight_out (d : SessionData) (t : Str) (x : ℚ)
    (hp : parseDec t = some x) (hout : x < 100 ∨ 250 < x) :
    (handleBodyHeight ⟨Stage.BODY_HEIGHT, d⟩ (some t)).accepted = false := by
  simp only [handleBodyHeight, hp]
  have hcond : ¬(100 ≤ x ∧ x ≤ 250) := by
    rintro ⟨h1, h2⟩
    rcases hout with h | h
    · exact absurd h1 (not_le.mpr h)
    · exact absurd h2 (not_le.mpr h)
  rw [if_pos hcond]
  rfl

theorem handleBodyHeight_boundary (d : SessionData) (t : Str) (x : ℚ)
    (hp : parseDec t = some x) (hin : 100 ≤ x ∧ x ≤ 250) :
    handleBodyHeight ⟨Stage.BODY_HEIGHT, d⟩ (some t) =
      accept ⟨Stage.BODY_WEIGHT, { d with body_height_cm := some x }⟩
        [str "Weight (in kg)?"] (str "text") [] false false 0 := by
  simp only [handleBodyHeight, hp]
  rw [if_neg (not_not_intro hin)]

theorem handleBodyWeight_out (d : SessionData) (t : Str) (x : ℚ)
    (hp : parseDec t = some x) (hout : x < 30 ∨ 300 < x) :
    (handleBodyWeight ⟨Stage.BODY_WEIGHT, d⟩ (some t)).accepted = false := by
  simp only [handleBodyWeight, hp]
  have hcond : ¬(30 ≤ x ∧ x ≤ 300) := by
    rintro ⟨h1, h2⟩
    rcases hout with h | h
    · exact absurd h1 (not_le.mpr h)
    · exact absurd h2 (not_le.mpr h)
  rw [if_pos hcond]
  rfl

theorem handleBodyWeight_boundary (d : SessionData) (t : Str) (x : ℚ)
    (hp : parseDec t = some x) (hin : 30 ≤ x ∧ x ≤ 300) :
    handleBodyWeight ⟨Stage.BODY_WEIGHT, d⟩ (some t) =
      accept ⟨Stage.BODY_AGE, { d with body_weight_kg := some x }⟩
        [str "Age?"] (str "text") [] false false 0 := by
  simp only [handleBodyWeight, hp]
  rw [if_neg (not_not_intro hin)]

theorem handleBodyAge_out (d : SessionData) (t : Str) (x : ℚ)
    (hp : parseDec t = some x) (hout : x < 1 ∨ 120 < x) :
    (handleBodyAge ⟨Stage.BODY_AGE, d⟩ (some t)).accepted = false := by
  simp only [handleBodyAge]
  rcases hd : isdigitStr t with _ | _
  · rw [if_pos (by simp [hd])]
    rfl
  · rw [if_neg (by simp [hd])]
    have hx := parseDec_of_isdigit hd
    rw [hp] at hx
    injection hx with hx
    have hnat : natOfDigits t < 1 ∨ 120 < natOfDigits t := by
      rcases hout with h | h
      · left
        rw [hx] at h
        exact_mod_cast h
      · right
        rw [hx] at h
        exact_mod_cast h
    rw [if_pos (by omega)]
    rfl

theorem handleBodyAge_boundary (d : SessionData) (t : Str)
    (hd : isdigitStr t = true) (hin : 1 ≤ natOfDigits t ∧ natOfDigits t ≤ 120) :
    handleBodyAge ⟨Stage.BODY_AGE, d⟩ (some t) =
      accept ⟨Stage.COMPLETE, { d with body_age := some (natOfDigits t) }⟩
        [str "Perfect! I have all the information I need. Generating your personalized recommendations..."]
        (str "text") [] true true 0 := by
  simp only [handleBodyAge]
  rw [if_neg (by simp [hd]), if_neg (not_not_intro hin)]

/-! ### Claim theorems -/

/-- C2: for every input (absent or any string), calling `process` while the
stage is COMPLETE returns a payload with `done=true` whose messages are the
fixed session-complete text, and leaves the stage and every field of
`SessionData` unchanged. -/
theorem c2_complete_frame (d : SessionData) (i : Option Str) :
    (process ⟨Stage.COMPLETE, d⟩ i).payload.done = true ∧
    (process ⟨Stage.COMPLETE, d⟩ i).payload.messages = [str "Session complete."] ∧
    (process ⟨Stage.COMPLETE, d⟩ i).payload.show_summary = false ∧
    (process ⟨Stage.COMPLETE, d⟩ i).state = ⟨Stage.COMPLETE, d⟩ :=
  ⟨rfl, rfl, rfl, rfl⟩

/-- C7: every token of `_clean_description text` is a token of `text` (no new
tokens are introduced), and every token of `text` that belongs to the domain
vocabulary `DOMAIN_HINTS` also appears in `_clean_description text` (domain
terms are never removed by stopword filtering). -/
theorem c7_clean_description_tokens (text : Str) :
    (∀ t ∈ _tokenize (_clean_description text), t ∈ _tokenize text) ∧
    (∀ t ∈ _tokenize text, t ∈ DOMAIN_HINTS →
      t ∈ _tokenize (_clean_description text)) := by
  rw [tokenize_clean_description]
  constructor
  · intro t ht
    exact List.mem_of_mem_filter ht
  · intro t ht hdom
    refine List.mem_filter.mpr ⟨ht, ?_⟩
    simp only [Bool.not_eq_true', decide_eq_false_iff_not]
    exact domain_hints_not_stopword hdom

set_option maxRecDepth 20000 in
/-- Witness for C7: `navy` is a domain term of a concrete description and
survives cleaning, which drops the stopwords `a` and `and`. -/
theorem c7_clean_description_tokens_witness :
    str "navy" ∈ _tokenize (str "a navy and cotton shirt") ∧
    str "navy" ∈ DOMAIN_HINTS ∧
    str "navy" ∈ _tokenize (_clean_description (str "a navy and cotton shirt")) :=
  ⟨by decide, by decide,
    (c7_clean_description_tokens (str "a navy and cotton shirt")).2
      (str "navy") (by decide) (by decide)⟩

/-- C8: `_normalize_text` (strip, lowercase, collapse whitespace runs) is
idempotent. -/
theorem c8_normalize_idempotent (s : Str) :
    _normalize_text (_normalize_text s) = _normalize_text s := by
  have h1 : _normalize_text (_normalize_text s) =
      collapseWs (lower (strip (_normalize_text s))) := rfl
  rw [h1, strip_normalize, lower_normalize]
  show collapseWs (collapseWs (lower (strip s))) = _normalize_text s
  rw [collapseWs_idem]
  rfl

/-- C9: whenever a `process` call rejects its input (any validation-failure
re-prompt, `accepted = false`), the entire session state — the stage and
every field of `SessionData` — is left unchanged: no partial writes happen
before a validation failure. -/
theorem c9_rejection_atomic (s : State) (i : Option Str)
    (h : (process s i).accepted = false) : (process s i).state = s :=
  not_accepted_state_eq s i h

/-- Witness for C9: a malformed mode choice is rejected without any write. -/
theorem c9_rejection_atomic_witness :
    (process ⟨Stage.MODE_SELECTION, initData⟩ (some (str "banana"))).accepted = false ∧
    (process ⟨Stage.MODE_SELECTION, initData⟩ (some (str "banana"))).state =
      ⟨Stage.MODE_SELECTION, initData⟩ :=
  ⟨by decide, c9_rejection_atomic _ _ (by decide)⟩

/-- C3 (amended): for each body-measurement stage with its fixed range
(BODY_HEIGHT accepts decimal numerals in [100,250], BODY_WEIGHT in [30,300],
BODY_AGE digit strings in [1,120]), every numeric input whose value is
strictly outside the range is rejected with the state unchanged, and every
input in the stage's numeric format whose value is exactly the lower or
upper boundary is accepted and advances the stage. -/
theorem c3_numeric_ranges :
    (∀ (d : SessionData) (s : Str) (x : ℚ), parseDec (strip s) = some x →
      x < 100 ∨ 250 < x →
      (process ⟨Stage.BODY_HEIGHT, d⟩ (some s)).accepted = false ∧
      (process ⟨Stage.BODY_HEIGHT, d⟩ (some s)).state = ⟨Stage.BODY_HEIGHT, d⟩) ∧
    (∀ (d : SessionData) (s : Str) (x : ℚ), parseDec (strip s) = some x →
      x = 100 ∨ x = 250 →
      (process ⟨Stage.BODY_HEIGHT, d⟩ (some s)).accepted = true ∧
      (process ⟨Stage.BODY_HEIGHT, d⟩ (some s)).state =
        ⟨Stage.BODY_WEIGHT, { d with body_height_cm := some x }⟩) ∧
    (∀ (d : SessionData) (s : Str) (x : ℚ), parseDec (strip s) = some x →
      x < 30 ∨ 300 < x →
      (process ⟨Stage.BODY_WEIGHT, d⟩ (some s)).accepted = false ∧
      (process ⟨Stage.BODY_WEIGHT, d⟩ (some s)).state = ⟨Stage.BODY_WEIGHT, d⟩) ∧
    (∀ (d : SessionData) (s : Str) (x : ℚ), parseDec (strip s) = some x →
      x = 30 ∨ x = 300 →
      (process ⟨Stage.BODY_WEIGHT, d⟩ (some s)).accepted = true ∧
      (process ⟨Stage.BODY_WEIGHT, d⟩ (some s)).state =
        ⟨Stage.BODY_AGE, { d with body_weight_kg := some x }⟩) ∧
    (∀ (d : SessionData) (s : Str) (x : ℚ), parseDec (strip s) = some x →
      x < 1 ∨ 120 < x →
      (process ⟨Stage.BODY_AGE, d⟩ (some s)).accepted = false ∧
      (process ⟨Stage.BODY_AGE, d⟩ (some s)).state = ⟨Stage.BODY_AGE, d⟩) ∧
    (∀ (d : SessionData) (s : Str), isdigitStr (strip s) = true →
      natOfDigits (strip s) = 1 ∨ natOfDigits (strip s) = 120 →
      (process ⟨Stage.BODY_AGE, d⟩ (some s)).accepted = true ∧
      (process ⟨Stage.BODY_AGE, d⟩ (some s)).state =
        ⟨Stage.COMPLETE, { d with body_age := some (natOfDigits (strip s)) }⟩) := by
  refine ⟨?_, ?_, ?_, ?_, ?_, ?_⟩
  · intro d s x hp hout
    have ha : (process ⟨Stage.BODY_HEIGHT, d⟩ (some s)).accepted = false := by
      rw [process_body_height]
      exact handleBodyHeight_out d (strip s) x hp hout
    exact ⟨ha, not_accepted_state_eq _ _ ha⟩
  · intro d s x hp hbnd
    have hin : 100 ≤ x ∧ x ≤ 250 := by rcases hbnd with rfl | rfl <;> norm_num
    rw [process_body_height, handleBodyHeight_boundary d (strip s) x hp hin]
    exact ⟨rfl, rfl⟩
  · intro d s x hp hout
    have ha : (process ⟨Stage.BODY_WEIGHT, d⟩ (some s)).accepted = false := by
      rw [process_body_weight]
      exact handleBodyWeight_out d (strip s) x hp hout
    exact ⟨ha, not_accepted_state_eq _ _ ha⟩
  · intro d s x hp hbnd
    have hin : 30 ≤ x ∧ x ≤ 300 := by rcases hbnd with rfl | rfl <;> norm_num
    rw [process_body_weight, handleBodyWeight_boundary d (strip s) x hp hin]
    exact ⟨rfl, rfl⟩
  · intro d s x hp hout
    have ha : (process ⟨Stage.BODY_AGE, d⟩ (some s)).accepted = false := by
      rw [process_body_age]
      exact handleBodyAge_out d (strip s) x hp hout
    exact ⟨ha, not_accepted_state_eq _ _ ha⟩
  · intro d s hd hbnd
    have hin : 1 ≤ natOfDigits (strip s) ∧ natOfDigits (strip s) ≤ 120 := by
      rcases hbnd with h | h <;> omega
    rw [process_body_age, handleBodyAge_boundary d (strip s) hd hin]
    exact ⟨rfl, rfl⟩

theorem parseDec_one_point_zero : parseDec (str "1.0") = some 1 := by
  have h1 : parseDec (str "1.0") = some ((natOfDigits (str "10") : ℚ) / 10 ^ 1) := rfl
  rw [h1, show natOfDigits (str "10") = 10 from by decide]
  norm_num

theorem parseDec_hundred : parseDec (strip (str "100")) = some 100 := by
  have h1 : parseDec (strip (str "100")) = some ((natOfDigits (str "100") : ℚ)) := rfl
  rw [h1, show natOfDigits (str "100") = 100 from by decide]
  norm_num

theorem parseDec_ninety_nine_five : parseDec (strip (str "99.5")) = some (995 / 10) := by
  have h1 : parseDec (strip (str "99.5")) =
      some ((natOfDigits (str "995") : ℚ) / 10 ^ 1) := rfl
  rw [h1, show natOfDigits (str "995") = 995 from by decide]
  norm_num

theorem parseDec_one_two_one : parseDec (strip (str "121")) = some 121 := by
  have h1 : parseDec (strip (str "121")) = some ((natOfDigits (str "121") : ℚ)) := rfl
  rw [h1, show natOfDigits (str "121") = 121 from by decide]
  norm_num

/-- Counterexample for C3 as frozen: the input `1.0` is numeric and its value
is exactly the lower boundary of the BODY_AGE range, yet the age handler
rejects it (it demands a digit string), leaving the stage at BODY_AGE. -/
theorem c3_numeric_ranges_counterexample :
    parseDec (str "1.0") = some 1 ∧
    (process ⟨Stage.BODY_AGE, initData⟩ (some (str "1.0"))).accepted = false ∧
    (process ⟨Stage.BODY_AGE, initData⟩ (some (str "1.0"))).state =
      ⟨Stage.BODY_AGE, initData⟩ :=
  ⟨parseDec_one_point_zero, by decide, by decide⟩

/-- Witness for C3: the exact boundary inputs `100` (height) and `120` (age)
are accepted, while `99.5` (height) and `121` (age) are rejected in place. -/
theorem c3_numeric_ranges_witness :
    ((process ⟨Stage.BODY_HEIGHT, initData⟩ (some (str "100"))).accepted = true ∧
      (process ⟨Stage.BODY_HEIGHT, initData⟩ (some (str "100"))).state.stage =
        Stage.BODY_WEIGHT) ∧
    (process ⟨Stage.BODY_HEIGHT, initData⟩ (some (str "99.5"))).state =
      ⟨Stage.BODY_HEIGHT, initData⟩ ∧
    ((process ⟨Stage.BODY_AGE, initData⟩ (some (str "120"))).accepted = true ∧
      (process ⟨Stage.BODY_AGE, initData⟩ (some (str "120"))).state.stage =
        Stage.COMPLETE) ∧
    (process ⟨Stage.BODY_AGE, initData⟩ (some (str "121"))).state =
      ⟨Stage.BODY_AGE, initData⟩ := by
  refine ⟨⟨?_, ?_⟩, ?_, ⟨?_, ?_⟩, ?_⟩
  · exact (c3_numeric_ranges.2.1 initData (str "100") 100 parseDec_hundred
      (Or.inl rfl)).1
  · rw [(c3_numeric_ranges.2.1 initData (str "100") 100 parseDec_hundred
      (Or.inl rfl)).2]
  · exact (c3_numeric_ranges.1 initData (str "99.5") (995 / 10)
      parseDec_ninety_nine_five (Or.inl (by norm_num))).2
  · exact (c3_numeric_ranges.2.2.2.2.2 initData (str "120") (by decide)
      (Or.inr (by decide))).1
  · rw [(c3_numeric_ranges.2.2.2.2.2 initData (str "120") (by decide)
      (Or.inr (by decide))).2]
  · exact (c3_numeric_ranges.2.2.2.2.1 initData (str "121") 121 parseDec_one_two_one
      (Or.inr (by norm_num))).2

/-- C4: at OUTFIT_ITEMS, an input with no comma, no conjunction word, and
exactly one token (hyphen-preserving split) in the item-type vocabulary
pivots the flow: `mode` is overwritten to `item`, `single_item_type` becomes
the whole trimmed input, and the stage jumps to ITEM_MATCH_WARDROBE. -/
theorem c4_single_item_pivot (d : SessionData) (s : Str)
    (hne : strip s ≠ []) (hcomma : 44 ∉ strip s)
    (hconj : hasConjunction (strip s) = false)
    (hone : chunkMatches (strip s) = 1) :
    (process ⟨Stage.OUTFIT_ITEMS, d⟩ (some s)).accepted = true ∧
    (process ⟨Stage.OUTFIT_ITEMS, d⟩ (some s)).state =
      ⟨Stage.ITEM_MATCH_WARDROBE,
        { d with
          mode := some (str "item"),
          single_item_type := some (strip s),
          single_item_type_clean := some (_normalize_text (strip s)) }⟩ := by
  rw [process_outfit_items]
  simp only [handleOutfitItems, strip_strip, if_neg hne, if_pos hcomma]
  rw [if_neg (by simp [hconj]), if_pos hone]
  exact ⟨rfl, rfl⟩

/-! ### Mode-write accounting (C5) -/

theorem modeWrites_budget (s : State) (i : Option Str) :
    (process s i).modeWrites + modeBudget (process s i).state.stage ≤
      modeBudget s.stage := by
  obtain ⟨st, d⟩ := s
  cases st <;> rcases i with _ | t <;>
    simp only [process, Option.map_none', Option.map_some', enterModeSelection,
      handleModeSelection, handleModeStyle, handleOutfitItems, handleOutfitOccasion,
      handleOutfitItemDesc, handleItemType, handleItemMatch, handleItemWardrobeItems,
      handleItemDesc, handleBodyHeight, handleBodyWeight, handleBodyAge] <;>
    (repeat' split) <;>
    simp_all [accept, reject, crashStep, modeBudget]

theorem modeWrites_stage (s : State) (i : Option Str) :
    (process s i).modeWrites ≠ 0 →
      s.stage = Stage.MODE_SELECTION ∨ s.stage = Stage.OUTFIT_ITEMS := by
  obtain ⟨st, d⟩ := s
  cases st <;> rcases i with _ | t <;>
    simp only [process, Option.map_none', Option.map_some', enterModeSelection,
      handleModeSelection, handleModeStyle, handleOutfitItems, handleOutfitOccasion,
      handleOutfitItemDesc, handleItemType, handleItemMatch, handleItemWardrobeItems,
      handleItemDesc, handleBodyHeight, handleBodyWeight, handleBodyAge] <;>
    (repeat' split) <;>
    simp_all [accept, reject, crashStep]

theorem totalModeWrites_le_budget (s : State) :
    ∀ is : List (Option Str), totalModeWrites s is ≤ modeBudget s.stage := by
  intro is
  induction is generalizing s with
  | nil => simp [totalModeWrites]
  | cons i is ih =>
    show (process s i).modeWrites + totalModeWrites (process s i).state is ≤ _
    calc (process s i).modeWrites + totalModeWrites (process s i).state is ≤
        (process s i).modeWrites + modeBudget (process s i).state.stage :=
          Nat.add_le_add_left (ih _) _
      _ ≤ modeBudget s.stage := modeWrites_budget s i

set_option maxRecDepth 40000 in
/-- Witness for C4: the input `blazer` pivots to item mode. -/
theorem c4_single_item_pivot_witness :
    (process ⟨Stage.OUTFIT_ITEMS, initData⟩ (some (str "blazer"))).state =
      ⟨Stage.ITEM_MATCH_WARDROBE,
        { initData with
          mode := some (str "item"),
          single_item_type := some (str "blazer"),
          single_item_type_clean := some (_normalize_text (str "blazer")) }⟩ := by
  have h := (c4_single_item_pivot initData (str "blazer")
    (by decide) (by decide) (by decide) (by decide)).2
  have hs : strip (str "blazer") = str "blazer" := by decide
  rw [hs] at h
  exact h

/-- C5 (amended): `mode` is assigned at most twice in any conversation —
once by the MODE_SELECTION handler and possibly once more by the single-item
pivot of OUTFIT_ITEMS — and every assignment happens while the stage is
MODE_SELECTION or OUTFIT_ITEMS. -/
theorem c5_mode_writes :
    (∀ is : List (Option Str), totalModeWrites initState is ≤ 2) ∧
    (∀ (s : State) (i : Option Str), (process s i).modeWrites ≠ 0 →
      s.stage = Stage.MODE_SELECTION ∨ s.stage = Stage.OUTFIT_ITEMS) :=
  ⟨fun is => totalModeWrites_le_budget initState is, modeWrites_stage⟩

set_option maxRecDepth 100000 in
set_option maxHeartbeats 2000000 in
/-- Counterexample for C5 as frozen: in the conversation
`outfit / casual / blazer` the field `mode` is assigned twice, and the second
assignment happens in the OUTFIT_ITEMS handler (the single-item pivot), not
in MODE_SELECTION. -/
theorem c5_mode_writes_counterexample :
    totalModeWrites initState
      [none, some (str "outfit"), some (str "casual"), some (str "blazer")] = 2 ∧
    (runState initState [none, some (str "outfit"), some (str "casual")]).stage =
      Stage.OUTFIT_ITEMS ∧
    (process (runState initState [none, some (str "outfit"), some (str "casual")])
      (some (str "blazer"))).modeWrites = 1 ∧
    (runState initState
        [none, some (str "outfit"), some (str "casual"), some (str "blazer")]).data.mode =
      some (str "item") :=
  ⟨by decide, by decide, by decide, by decide⟩

set_option maxRecDepth 100000 in
set_option maxHeartbeats 2000000 in
/-- Witness for C5 (amended): a mode write with a non-zero count happens at
stage OUTFIT_ITEMS, and the bound applies to a concrete conversation. -/
theorem c5_mode_writes_witness :
    totalModeWrites initState [none, some (str "outfit"), some (str "casual")] ≤ 2 ∧
    ((⟨Stage.OUTFIT_ITEMS, initData⟩ : State).stage = Stage.MODE_SELECTION ∨
      (⟨Stage.OUTFIT_ITEMS, initData⟩ : State).stage = Stage.OUTFIT_ITEMS) :=
  ⟨c5_mode_writes.1 _,
    c5_mode_writes.2 ⟨Stage.OUTFIT_ITEMS, initData⟩ (some (str "blazer")) (by decide)⟩

/-! ### `show_summary` accounting (C6) -/

theorem process_complete (d : SessionData) (i : Option Str) :
    process ⟨Stage.COMPLETE, d⟩ i =
      ⟨⟨Stage.COMPLETE, d⟩,
        ⟨[str "Session complete."], Stage.COMPLETE, str "text", [], true, false⟩,
        false, 0, false⟩ := rfl

theorem runState_complete (d : SessionData) :
    ∀ is : List (Option Str), runState ⟨Stage.COMPLETE, d⟩ is = ⟨Stage.COMPLETE, d⟩ := by
  intro is
  induction is with
  | nil => rfl
  | cons i is ih =>
    show runState (process ⟨Stage.COMPLETE, d⟩ i).state is = _
    rw [process_complete]
    exact ih

theorem runState_stage_complete (s : State) (h : s.stage = Stage.COMPLETE)
    (is : List (Option Str)) : runState s is = s := by
  obtain ⟨st, d⟩ := s
  simp only at h
  subst h
  exact runState_complete d is

theorem show_summary_iff (s : State) (i : Option Str) :
    (process s i).payload.show_summary = true ↔
      (s.stage ≠ Stage.COMPLETE ∧ (process s i).state.stage = Stage.COMPLETE) := by
  obtain ⟨st, d⟩ := s
  cases st <;> rcases i with _ | t <;>
    simp only [process, Option.map_none', Option.map_some', enterModeSelection,
      handleModeSelection, handleModeStyle, handleOutfitItems, handleOutfitOccasion,
      handleOutfitItemDesc, handleItemType, handleItemMatch, handleItemWardrobeItems,
      handleItemDesc, handleBodyHeight, handleBodyWeight, handleBodyAge] <;>
    (repeat' split) <;>
    simp_all [accept, reject, crashStep]

theorem countShowSummary_eq (is : List (Option Str)) :
    ∀ s : State, countShowSummary s is =
      (if s.stage ≠ Stage.COMPLETE ∧ (runState s is).stage = Stage.COMPLETE
        then 1 else 0) := by
  induction is with
  | nil =>
    intro s
    show 0 = _
    by_cases hs : s.stage = Stage.COMPLETE <;> simp [runState, hs]
  | cons i is ih =>
    intro s
    show (if (process s i).payload.show_summary then 1 else 0) +
        countShowSummary (process s i).state is = _
    rw [ih]
    by_cases hs : s.stage = Stage.COMPLETE
    · obtain ⟨st, d⟩ := s
      simp only at hs
      subst hs
      rw [process_complete]
      simp [runState_complete]
    · by_cases hnext : (process s i).state.stage = Stage.COMPLETE
      · have hss : (process s i).payload.show_summary = true :=
          (show_summary_iff s i).mpr ⟨hs, hnext⟩
        have hrun : (runState s (i :: is)).stage = Stage.COMPLETE := by
          show (runState (process s i).state is).stage = _
          rw [runState_stage_complete _ hnext]
          exact hnext
        rw [hss, if_pos rfl,
          if_neg (fun hcon => absurd hnext hcon.1),
          if_pos ⟨hs, hrun⟩]
      · have hss : (process s i).payload.show_summary = false := by
          rcases hb : (process s i).payload.show_summary
          · rfl
          · exact absurd ((show_summary_iff s i).mp hb).2 hnext
        rw [hss, if_neg (by simp)]
        rw [Nat.zero_add]
        have hrr : runState s (i :: is) = runState (process s i).state is := rfl
        rw [hrr]
        by_cases hfin : (runState (process s i).state is).stage = Stage.COMPLETE
        · rw [if_pos ⟨hnext, hfin⟩, if_pos ⟨hs, hfin⟩]
        · rw [if_neg (by simp [hfin]), if_neg (by simp [hfin])]

/-- C6: along every conversation from the initial state, a payload with
`show_summary = true` is returned exactly once if the run reaches COMPLETE
and never otherwise; pointwise, a call returns `show_summary = true` exactly
when its accepted input causes the transition into COMPLETE. -/
theorem c6_show_summary_once :
    (∀ is : List (Option Str), countShowSummary initState is =
      (if (runState initState is).stage = Stage.COMPLETE then 1 else 0)) ∧
    (∀ (s : State) (i : Option Str), (process s i).payload.show_summary = true ↔
      (s.stage ≠ Stage.COMPLETE ∧ (process s i).state.stage = Stage.COMPLETE)) := by
  constructor
  · intro is
    rw [countShowSummary_eq is initState]
    have hinit : (initState.stage = Stage.COMPLETE) = False := by
      simp [initState]
    by_cases hfin : (runState initState is).stage = Stage.COMPLETE
    · rw [if_pos ⟨by simp [initState], hfin⟩, if_pos hfin]
    · rw [if_neg (by simp [hfin]), if_neg hfin]
  · exact show_summary_iff

set_option maxRecDepth 200000 in
set_option maxHeartbeats 4000000 in
/-- Witness for C6: the full outfit conversation of the spec (scenario A)
emits `show_summary=true` exactly once. -/
theorem c6_show_summary_once_witness :
    countShowSummary initState
      [none, some (str "outfit"), some (str "casual"),
        some (str "jeans, t-shirt, blazer"), some (str "daily"),
        some (str "blue, slim"), some (str "white, cotton"),
        some (str "black, tailored"), some (str "175"), some (str "70"),
        some (str "28")] = 1 := by
  have h := c6_show_summary_once.1
    [none, some (str "outfit"), some (str "casual"),
      some (str "jeans, t-shirt, blazer"), some (str "daily"),
      some (str "blue, slim"), some (str "white, cotton"),
      some (str "black, tailored"), some (str "175"), some (str "70"),
      some (str "28")]
  rw [if_pos (by decide)] at h
  exact h

/-! ### The session invariant (C10, C1) -/

theorem keysOf_dictInsert_self (k v : Str) :
    ∀ d : List (Str × Str), k ∈ keysOf (dictInsert k v d) := by
  intro d
  induction d with
  | nil => simp [dictInsert, keysOf]
  | cons e rest ih =>
    obtain ⟨k2, v2⟩ := e
    by_cases hk : k2 = k
    · simp [dictInsert, hk, keysOf]
    · simp only [dictInsert, if_neg hk, keysOf, List.map_cons, List.mem_cons]
      right
      exact ih

theorem keysOf_dictInsert_mem (k v x : Str) :
    ∀ d : List (Str × Str), x ∈ keysOf d → x ∈ keysOf (dictInsert k v d) := by
  intro d
  induction d with
  | nil => simp [keysOf]
  | cons e rest ih =>
    obtain ⟨k2, v2⟩ := e
    intro hx
    simp only [keysOf, List.map_cons, List.mem_cons] at hx
    by_cases hk : k2 = k
    · simp only [dictInsert, if_pos hk, keysOf, List.map_cons, List.mem_cons]
      rcases hx with hx | hx
      · left; rw [hx, hk]
      · right; exact hx
    · simp only [dictInsert, if_neg hk, keysOf, List.map_cons, List.mem_cons]
      rcases hx with hx | hx
      · left; exact hx
      · right; exact ih hx

theorem sessionInv_of_stage (s : State)
    (h1 : s.stage ≠ Stage.OUTFIT_OCCASION) (h2 : s.stage ≠ Stage.OUTFIT_ITEM_DESC)
    (h3 : s.stage ≠ Stage.ITEM_MATCH_WARDROBE)
    (h4 : s.stage ≠ Stage.ITEM_WARDROBE_ITEMS)
    (h5 : s.stage ≠ Stage.ITEM_DESC) : SessionInv s :=
  ⟨fun hh => absurd hh h1, fun hh => absurd hh h2,
    fun hh => by rcases hh with hh | hh | hh
                 exacts [absurd hh h3, absurd hh h4, absurd hh h5]⟩

theorem sessionInv_single (st : Stage) (d : SessionData)
    (h : d.single_item_type ≠ none) (h1 : st ≠ Stage.OUTFIT_OCCASION)
    (h2 : st ≠ Stage.OUTFIT_ITEM_DESC) : SessionInv ⟨st, d⟩ :=
  ⟨fun hh => absurd hh h1, fun hh => absurd hh h2, fun _ => h⟩

theorem sessionInv_occasion (d : SessionData)
    (h : d.outfit_items_pending = d.outfit_items_list)
    (hne : d.outfit_items_list ≠ []) : SessionInv ⟨Stage.OUTFIT_OCCASION, d⟩ :=
  ⟨fun _ => ⟨h, hne⟩, fun hh => by simp at hh,
    fun hh => by rcases hh with hh | hh | hh <;> simp at hh⟩

theorem sessionInv_desc (d : SessionData) (done : List Str) (cur : Str) (rest : List Str)
    (hl : d.outfit_items_list = done ++ cur :: rest)
    (hc : d.current_item = some cur) (hp : d.outfit_items_pending = rest)
    (hdone : ∀ x ∈ done, x ∈ keysOf d.descriptions) :
    SessionInv ⟨Stage.OUTFIT_ITEM_DESC, d⟩ :=
  ⟨fun hh => by simp at hh,
    fun _ => ⟨done, cur, rest, hl, hc, hp, hdone⟩,
    fun hh => by rcases hh with hh | hh | hh <;> simp at hh⟩

theorem sessionInv_init : SessionInv initState :=
  sessionInv_of_stage _ (by decide) (by decide) (by decide) (by decide) (by decide)

theorem sessionInv_step (s : State) (i : Option Str) (h : SessionInv s) :
    SessionInv (process s i).state := by
  obtain ⟨st, d⟩ := s
  obtain ⟨hInv1, hInv2, hInv3⟩ := h
  cases st with
  | START =>
    exact sessionInv_of_stage _ (by simp [process, enterModeSelection, accept])
      (by simp [process, enterModeSelection, accept])
      (by simp [process, enterModeSelection, accept])
      (by simp [process, enterModeSelection, accept])
      (by simp [process, enterModeSelection, accept])
  | MODE_SELECTION =>
    rcases i with _ | t
    · exact ⟨hInv1, hInv2, hInv3⟩
    · simp only [process, Option.map_some', handleModeSelection]
      by_cases hv : strip t = [] ∨ lower (strip t) ∉ modeChoices
      · rw [if_pos hv]
        exact ⟨hInv1, hInv2, hInv3⟩
      · rw [if_neg hv]
        split <;>
          exact sessionInv_of_stage _ (by simp [accept]) (by simp [accept])
            (by simp [accept]) (by simp [accept]) (by simp [accept])
  | MODE_STYLE =>
    rcases i with _ | t
    · exact ⟨hInv1, hInv2, hInv3⟩
    · simp only [process, Option.map_some', handleModeStyle]
      (repeat' split) <;>
        first
          | exact ⟨hInv1, hInv2, hInv3⟩
          | exact sessionInv_of_stage _ (by simp [accept]) (by simp [accept])
              (by simp [accept]) (by simp [accept]) (by simp [accept])
  | OUTFIT_ITEMS =>
    rcases i with _ | t
    · exact ⟨hInv1, hInv2, hInv3⟩
    · simp only [process, Option.map_some', handleOutfitItems, strip_strip]
      by_cases h1 : strip t = []
      · rw [if_pos h1]
        exact ⟨hInv1, hInv2, hInv3⟩
      · rw [if_neg h1]
        by_cases h2 : 44 ∉ strip t
        · rw [if_pos h2]
          by_cases h3 : hasConjunction (strip t) = true
          · rw [if_pos h3]
            exact ⟨hInv1, hInv2, hInv3⟩
          · rw [if_neg h3]
            by_cases h4 : chunkMatches (strip t) = 1
            · rw [if_pos h4]
              exact sessionInv_single _ _ (by simp) (by simp) (by simp)
            · rw [if_neg h4]
              by_cases h5 : chunkMatches (strip t) = 0
              · rw [if_pos h5]
                exact ⟨hInv1, hInv2, hInv3⟩
              · rw [if_neg h5]
                exact ⟨hInv1, hInv2, hInv3⟩
        · rw [if_neg h2]
          by_cases h3 : ((rawChunks (strip t)).any
              (fun c => hasConjunction c || decide (2 ≤ chunkMatches c))) = true
          · rw [if_pos h3]
            exact ⟨hInv1, hInv2, hInv3⟩
          · rw [if_neg h3]
            by_cases h4 :
                (rawChunks (strip t)).filter (fun c => !(_has_item_type_token 1 c)) ≠ []
            · rw [if_pos h4]
              exact ⟨hInv1, hInv2, hInv3⟩
            · rw [if_neg h4]
              by_cases h5 : rawChunks (strip t) = []
              · rw [if_pos h5]
                exact ⟨hInv1, hInv2, hInv3⟩
              · rw [if_neg h5]
                exact sessionInv_occasion _ (by simp) (by simpa using h5)
  | OUTFIT_OCCASION =>
    rcases i with _ | t
    · exact ⟨hInv1, hInv2, hInv3⟩
    · simp only [process, Option.map_some', handleOutfitOccasion]
      by_cases hv : strip t = [] ∨ lower (strip t) ∉ occasionChoices
      · rw [if_pos hv]
        exact ⟨hInv1, hInv2, hInv3⟩
      · rw [if_neg hv]
        obtain ⟨hpl, hne⟩ := hInv1 rfl
        rcases hpend : d.outfit_items_pending with _ | ⟨x, rest⟩
        · rw [hpend] at hpl
          exact absurd hpl.symm (by simp_all)
        · simp only [hpend]
          apply sessionInv_desc _ [] x rest
          · simp
            rw [← hpl, hpend]
          · simp
          · simp
          · simp
  | OUTFIT_ITEM_DESC =>
    rcases i with _ | t
    · exact ⟨hInv1, hInv2, hInv3⟩
    · obtain ⟨done, cur, rest, hl, hc, hp, hdone⟩ := hInv2 rfl
      simp only [process, Option.map_some', handleOutfitItemDesc]
      by_cases h1 : strip t = []
      · rw [if_pos h1]
        exact ⟨hInv1, fun _ => ⟨done, cur, rest, hl, hc, hp, hdone⟩, hInv3⟩
      · rw [if_neg h1]
        by_cases h2 : _has_domain_words 1 (strip t) = true
        · rw [if_neg (by simp [h2])]
          rw [hc]
          rw [show ({ d with
              descriptions := dictInsert cur (strip t) d.descriptions,
              descriptions_clean :=
                dictInsert cur (_clean_description (strip t)) d.descriptions_clean } :
              SessionData).outfit_items_pending = rest from hp]
          rcases rest with _ | ⟨x, rest2⟩
          · exact sessionInv_of_stage _ (by simp [accept]) (by simp [accept])
              (by simp [accept]) (by simp [accept]) (by simp [accept])
          · apply sessionInv_desc _ (done ++ [cur]) x rest2
            · simp only []
              rw [hl, List.append_assoc]
              rfl
            · simp
            · simp
            · intro y hy
              rcases List.mem_append.mp hy with hy | hy
              · exact keysOf_dictInsert_mem _ _ _ _ (hdone y hy)
              · simp only [List.mem_singleton] at hy
                subst hy
                exact keysOf_dictInsert_self _ _ _
        · rw [if_pos (by simp [h2])]
          exact ⟨hInv1, fun _ => ⟨done, cur, rest, hl, hc, hp, hdone⟩, hInv3⟩
  | ITEM_TYPE =>
    rcases i with _ | t
    · exact ⟨hInv1, hInv2, hInv3⟩
    · simp only [process, Option.map_some', handleItemType]
      (repeat' split) <;>
        first
          | exact ⟨hInv1, hInv2, hInv3⟩
          | exact sessionInv_single _ _ (by simp) (by simp) (by simp)
  | ITEM_MATCH_WARDROBE =>
    have hs : d.single_item_type ≠ none := hInv3 (Or.inl rfl)
    rcases i with _ | t
    · exact ⟨hInv1, hInv2, hInv3⟩
    · simp only [process, Option.map_some', handleItemMatch]
      (repeat' split) <;>
        first
          | exact ⟨hInv1, hInv2, hInv3⟩
          | exact sessionInv_single _ _ (by simpa using hs) (by simp) (by simp)
  | ITEM_WARDROBE_ITEMS =>
    have hs : d.single_item_type ≠ none := hInv3 (Or.inr (Or.inl rfl))
    rcases i with _ | t
    · exact ⟨hInv1, hInv2, hInv3⟩
    · simp only [process, Option.map_some', handleItemWardrobeItems]
      (repeat' split) <;>
        first
          | exact ⟨hInv1, hInv2, hInv3⟩
          | exact sessionInv_single _ _ (by simpa using hs) (by simp) (by simp)
  | ITEM_DESC =>
    have hs : d.single_item_type ≠ none := hInv3 (Or.inr (Or.inr rfl))
    rcases i with _ | t
    · exact ⟨hInv1, hInv2, hInv3⟩
    · simp only [process, Option.map_some', handleItemDesc]
      (repeat' split) <;>
        first
          | exact ⟨hInv1, hInv2, hInv3⟩
          | exact sessionInv_of_stage _ (by simp [accept]) (by simp [accept])
              (by simp [accept]) (by simp [accept]) (by simp [accept])
  | BODY_HEIGHT =>
    rcases i with _ | t
    · exact ⟨hInv1, hInv2, hInv3⟩
    · simp only [process, Option.map_some', handleBodyHeight]
      (repeat' split) <;>
        first
          | exact ⟨hInv1, hInv2, hInv3⟩
          | exact sessionInv_of_stage _ (by simp [accept]) (by simp [accept])
              (by simp [accept]) (by simp [accept]) (by simp [accept])
  | BODY_WEIGHT =>
    rcases i with _ | t
    · exact ⟨hInv1, hInv2, hInv3⟩
    · simp only [process, Option.map_some', handleBodyWeight]
      (repeat' split) <;>
        first
          | exact ⟨hInv1, hInv2, hInv3⟩
          | exact sessionInv_of_stage _ (by simp [accept]) (by simp [accept])
              (by simp [accept]) (by simp [accept]) (by simp [accept])
  | BODY_AGE =>
    rcases i with _ | t
    · exact ⟨hInv1, hInv2, hInv3⟩
    · simp only [process, Option.map_some', handleBodyAge]
      (repeat' split) <;>
        first
          | exact ⟨hInv1, hInv2, hInv3⟩
          | exact sessionInv_of_stage _ (by simp [accept]) (by simp [accept])
              (by simp [accept]) (by simp [accept]) (by simp [accept])
  | COMPLETE =>
    exact ⟨hInv1, hInv2, hInv3⟩

theorem sessionInv_run (is : List (Option Str)) :
    SessionInv (runState initState is) := by
  suffices H : ∀ (is : List (Option Str)) (s : State), SessionInv s →
      SessionInv (runState s is) from H is initState sessionInv_init
  intro is
  induction is with
  | nil => exact fun s hs => hs
  | cons i is ih => exact fun s hs => ih _ (sessionInv_step s i hs)

/-- On a state satisfying the invariant, no `process` call can reach a
raising branch (the `pop` of the occasion handler, the asserts of the
description handlers). -/
theorem no_crash (s : State) (i : Option Str) (h : SessionInv s) :
    (process s i).wouldCrash = false := by
  obtain ⟨st, d⟩ := s
  obtain ⟨hInv1, hInv2, hInv3⟩ := h
  cases st with
  | OUTFIT_OCCASION =>
    rcases i with _ | t
    · rfl
    · simp only [process, Option.map_some', handleOutfitOccasion]
      by_cases hv : strip t = [] ∨ lower (strip t) ∉ occasionChoices
      · rw [if_pos hv]
        rfl
      · rw [if_neg hv]
        obtain ⟨hpl, hne⟩ := hInv1 rfl
        rcases hpend : d.outfit_items_pending with _ | ⟨x, rest⟩
        · rw [hpend] at hpl
          exact absurd hpl.symm (by simp_all)
        · simp only [hpend]
          rfl
  | OUTFIT_ITEM_DESC =>
    rcases i with _ | t
    · rfl
    · obtain ⟨done, cur, rest, hl, hc, hp, hdone⟩ := hInv2 rfl
      simp only [process, Option.map_some', handleOutfitItemDesc]
      by_cases h1 : strip t = []
      · rw [if_pos h1]
        rfl
      · rw [if_neg h1]
        by_cases h2 : _has_domain_words 1 (strip t) = true
        · rw [if_neg (by simp [h2]), hc]
          rw [show ({ d with
              descriptions := dictInsert cur (strip t) d.descriptions,
              descriptions_clean :=
                dictInsert cur (_clean_description (strip t)) d.descriptions_clean } :
              SessionData).outfit_items_pending = rest from hp]
          rcases rest with _ | ⟨x, rest2⟩ <;> rfl
        · rw [if_pos (by simp [h2])]
          rfl
  | ITEM_DESC =>
    have hs : d.single_item_type ≠ none := hInv3 (Or.inr (Or.inr rfl))
    rcases i with _ | t
    · rfl
    · simp only [process, Option.map_some', handleItemDesc]
      by_cases h1 : strip t = []
      · rw [if_pos h1]
        rfl
      · rw [if_neg h1]
        by_cases h2 : _has_domain_words 1 (strip t) = true
        · rw [if_neg (by simp [h2])]
          rcases hsing : d.single_item_type with _ | ty
          · exact absurd hsing hs
          · simp only [hsing]
            rfl
        · rw [if_pos (by simp [h2])]
          rfl
  | START => rfl
  | MODE_SELECTION =>
    rcases i with _ | t
    · rfl
    · simp only [process, Option.map_some', handleModeSelection]
      (repeat' split) <;> rfl
  | MODE_STYLE =>
    rcases i with _ | t
    · rfl
    · simp only [process, Option.map_some', handleModeStyle]
      (repeat' split) <;> rfl
  | OUTFIT_ITEMS =>
    rcases i with _ | t
    · rfl
    · simp only [process, Option.map_some', handleOutfitItems]
      (repeat' split) <;> rfl
  | ITEM_TYPE =>
    rcases i with _ | t
    · rfl
    · simp only [process, Option.map_some', handleItemType]
      (repeat' split) <;> rfl
  | ITEM_MATCH_WARDROBE =>
    rcases i with _ | t
    · rfl
    · simp only [process, Option.map_some', handleItemMatch]
      (repeat' split) <;> rfl
  | ITEM_WARDROBE_ITEMS =>
    rcases i with _ | t
    · rfl
    · simp only [process, Option.map_some', handleItemWardrobeItems]
      (repeat' split) <;> rfl
  | BODY_HEIGHT =>
    rcases i with _ | t
    · rfl
    · simp only [process, Option.map_some', handleBodyHeight]
      (repeat' split) <;> rfl
  | BODY_WEIGHT =>
    rcases i with _ | t
    · rfl
    · simp only [process, Option.map_some', handleBodyWeight]
      (repeat' split) <;> rfl
  | BODY_AGE =>
    rcases i with _ | t
    · rfl
    · simp only [process, Option.map_some', handleBodyAge]
      (repeat' split) <;> rfl
  | COMPLETE => rfl

/-- C10: in every reachable state, at OUTFIT_OCCASION the pending queue is
non-empty and at OUTFIT_ITEM_DESC `current_item` is set, and hence no
`process` call from a reachable state can hit the `pop` of the occasion
handler or the asserts of the description handlers. -/
theorem c10_pop_and_assert_safe (is : List (Option Str)) :
    ((runState initState is).stage = Stage.OUTFIT_OCCASION →
      (runState initState is).data.outfit_items_pending ≠ []) ∧
    ((runState initState is).stage = Stage.OUTFIT_ITEM_DESC →
      (runState initState is).data.current_item ≠ none) ∧
    (∀ i : Option Str, (process (runState initState is) i).wouldCrash = false) := by
  have h := sessionInv_run is
  obtain ⟨h1, h2, h3⟩ := h
  refine ⟨?_, ?_, fun i => no_crash _ i ⟨h1, h2, h3⟩⟩
  · intro hst
    obtain ⟨hpl, hne⟩ := h1 hst
    rw [hpl]
    exact hne
  · intro hst
    obtain ⟨done, cur, rest, hl, hc, hp, hdone⟩ := h2 hst
    rw [hc]
    simp

/-! ### Draining of the pending queue (C1) -/

theorem pendingDone_step (s : State) (i : Option Str)
    (h1 : pendingDone s.stage) (h2 : s.data.outfit_items_pending = []) :
    pendingDone (process s i).state.stage ∧
      (process s i).state.data.outfit_items_pending = [] := by
  obtain ⟨st, d⟩ := s
  cases st with
  | START => exact absurd h1 (by simp [pendingDone])
  | MODE_SELECTION => exact absurd h1 (by simp [pendingDone])
  | MODE_STYLE => exact absurd h1 (by simp [pendingDone])
  | OUTFIT_ITEMS => exact absurd h1 (by simp [pendingDone])
  | OUTFIT_OCCASION => exact absurd h1 (by simp [pendingDone])
  | ITEM_TYPE => exact absurd h1 (by simp [pendingDone])
  | ITEM_MATCH_WARDROBE => exact absurd h1 (by simp [pendingDone])
  | ITEM_WARDROBE_ITEMS => exact absurd h1 (by simp [pendingDone])
  | ITEM_DESC => exact absurd h1 (by simp [pendingDone])
  | OUTFIT_ITEM_DESC =>
    rcases i with _ | t <;>
      simp only [process, Option.map_none', Option.map_some', handleOutfitItemDesc] <;>
      (repeat' split) <;>
      refine ⟨?_, ?_⟩ <;>
      simp_all [pendingDone, accept, reject, crashStep]
  | BODY_HEIGHT =>
    rcases i with _ | t <;>
      simp only [process, Option.map_none', Option.map_some', handleBodyHeight] <;>
      (repeat' split) <;>
      refine ⟨?_, ?_⟩ <;>
      simp_all [pendingDone, accept, reject, crashStep]
  | BODY_WEIGHT =>
    rcases i with _ | t <;>
      simp only [process, Option.map_none', Option.map_some', handleBodyWeight] <;>
      (repeat' split) <;>
      refine ⟨?_, ?_⟩ <;>
      simp_all [pendingDone, accept, reject, crashStep]
  | BODY_AGE =>
    rcases i with _ | t <;>
      simp only [process, Option.map_none', Option.map_some', handleBodyAge] <;>
      (repeat' split) <;>
      refine ⟨?_, ?_⟩ <;>
      simp_all [pendingDone, accept, reject, crashStep]
  | COMPLETE =>
    exact ⟨h1, h2⟩

theorem pending_empty_land (s : State) (i : Option Str)
    (h1 : s.data.outfit_items_pending ≠ [])
    (h2 : (process s i).state.data.outfit_items_pending = []) :
    pendingDone (process s i).state.stage := by
  obtain ⟨st, d⟩ := s
  cases st <;> rcases i with _ | t <;>
    simp only [process, Option.map_none', Option.map_some', enterModeSelection,
      handleModeSelection, handleModeStyle, handleOutfitItems, handleOutfitOccasion,
      handleOutfitItemDesc, handleItemType, handleItemMatch, handleItemWardrobeItems,
      handleItemDesc, handleBodyHeight, handleBodyWeight, handleBodyAge] at h2 ⊢ <;>
    (repeat' split at h2) <;>
    simp_all [pendingDone, accept, reject, crashStep]

theorem emptyTransitions_zero (is : List (Option Str)) :
    ∀ s : State, pendingDone s.stage → s.data.outfit_items_pending = [] →
      emptyTransitions s is = 0 := by
  induction is with
  | nil => intro s _ _; rfl
  | cons i is ih =>
    intro s h1 h2
    show (if s.data.outfit_items_pending ≠ [] ∧
        (process s i).state.data.outfit_items_pending = [] then 1 else 0) +
      emptyTransitions (process s i).state is = 0
    obtain ⟨h1', h2'⟩ := pendingDone_step s i h1 h2
    rw [if_neg (fun hc => hc.1 h2), ih _ h1' h2']

theorem emptyTransitions_le_one (is : List (Option Str)) :
    ∀ s : State, emptyTransitions s is ≤ 1 := by
  induction is with
  | nil => intro s; exact Nat.zero_le 1
  | cons i is ih =>
    intro s
    show (if s.data.outfit_items_pending ≠ [] ∧
        (process s i).state.data.outfit_items_pending = [] then 1 else 0) +
      emptyTransitions (process s i).state is ≤ 1
    by_cases hc : s.data.outfit_items_pending ≠ [] ∧
        (process s i).state.data.outfit_items_pending = []
    · rw [if_pos hc,
        emptyTransitions_zero is _ (pending_empty_land s i hc.1 hc.2) hc.2]
    · rw [if_neg hc, Nat.zero_add]
      exact ih _

theorem pending_empty_coverage (s : State) (i : Option Str) (hInv : SessionInv s)
    (h1 : s.data.outfit_items_pending ≠ [])
    (h2 : (process s i).state.data.outfit_items_pending = []) :
    ∀ x ∈ (process s i).state.data.outfit_items_list,
      x ∈ keysOf (process s i).state.data.descriptions ∨
        (process s i).state.data.current_item = some x := by
  obtain ⟨st, d⟩ := s
  obtain ⟨hInv1, hInv2, hInv3⟩ := hInv
  cases st with
  | OUTFIT_OCCASION =>
    rcases i with _ | t
    · exact absurd h2 h1
    · simp only [process, Option.map_some', handleOutfitOccasion] at h2 ⊢
      by_cases hv : strip t = [] ∨ lower (strip t) ∉ occasionChoices
      · rw [if_pos hv] at h2 ⊢
        exact absurd h2 h1
      · rw [if_neg hv] at h2 ⊢
        obtain ⟨hpl, hne⟩ := hInv1 rfl
        rcases hpend : d.outfit_items_pending with _ | ⟨x, rest⟩
        · exact absurd hpend h1
        · simp only [hpend] at h2 ⊢
          simp only [accept, reject] at h2 ⊢
          rw [hpend] at hpl
          intro y hy
          rw [← hpl] at hy
          rcases h2 with h2
          subst h2
          simp at hy
          right
          rw [hy]
  | OUTFIT_ITEM_DESC =>
    rcases i with _ | t
    · exact absurd h2 h1
    · obtain ⟨done, cur, rest, hl, hc, hp, hdone⟩ := hInv2 rfl
      simp only [process, Option.map_some', handleOutfitItemDesc] at h2 ⊢
      by_cases hb1 : strip t = []
      · rw [if_pos hb1] at h2 ⊢
        exact absurd h2 h1
      · rw [if_neg hb1] at h2 ⊢
        by_cases hb2 : _has_domain_words 1 (strip t) = true
        · rw [if_neg (by simp [hb2]), hc] at h2 ⊢
          rw [show ({ d with
              descriptions := dictInsert cur (strip t) d.descriptions,
              descriptions_clean :=
                dictInsert cur (_clean_description (strip t)) d.descriptions_clean } :
              SessionData).outfit_items_pending = rest from hp] at h2 ⊢
          rcases rest with _ | ⟨x, rest2⟩
          · exact absurd (hp.trans rfl) h1
          · simp only [accept] at h2 ⊢
            intro y hy
            rw [hl] at hy
            rcases List.mem_append.mp hy with hy | hy
            · left
              exact keysOf_dictInsert_mem _ _ _ _ (hdone y hy)
            · rcases List.mem_cons.mp hy with rfl | hy
              · left
                exact keysOf_dictInsert_self _ _ _
              · rcases List.mem_cons.mp hy with rfl | hy
                · right
                  rfl
                · rw [h2] at hy
                  simp at hy
        · rw [if_pos (by simp [hb2])] at h2 ⊢
          exact absurd h2 h1
  | START =>
    exact absurd h2 h1
  | MODE_SELECTION =>
    rcases i with _ | t
    · exact absurd h2 h1
    · simp only [process, Option.map_some', handleModeSelection] at h2 ⊢
      (repeat' split at h2) <;> simp_all [accept, reject]
  | MODE_STYLE =>
    rcases i with _ | t
    · exact absurd h2 h1
    · simp only [process, Option.map_some', handleModeStyle] at h2 ⊢
      (repeat' split at h2) <;> simp_all [accept, reject]
  | OUTFIT_ITEMS =>
    rcases i with _ | t
    · exact absurd h2 h1
    · simp only [process, Option.map_some', handleOutfitItems] at h2 ⊢
      (repeat' split at h2) <;> simp_all [accept, reject]
  | ITEM_TYPE =>
    rcases i with _ | t
    · exact absurd h2 h1
    · simp only [process, Option.map_some', handleItemType] at h2 ⊢
      (repeat' split at h2) <;> simp_all [accept, reject]
  | ITEM_MATCH_WARDROBE =>
    rcases i with _ | t
    · exact absurd h2 h1
    · simp only [process, Option.map_some', handleItemMatch] at h2 ⊢
      (repeat' split at h2) <;> simp_all [accept, reject]
  | ITEM_WARDROBE_ITEMS =>
    rcases i with _ | t
    · exact absurd h2 h1
    · simp only [process, Option.map_some', handleItemWardrobeItems] at h2 ⊢
      (repeat' split at h2) <;> simp_all [accept, reject]
  | ITEM_DESC =>
    rcases i with _ | t
    · exact absurd h2 h1
    · simp only [process, Option.map_some', handleItemDesc] at h2 ⊢
      (repeat' split at h2) <;> simp_all [accept, reject, crashStep]
  | BODY_HEIGHT =>
    rcases i with _ | t
    · exact absurd h2 h1
    · simp only [process, Option.map_some', handleBodyHeight] at h2 ⊢
      (repeat' split at h2) <;> simp_all [accept, reject]
  | BODY_WEIGHT =>
    rcases i with _ | t
    · exact absurd h2 h1
    · simp only [process, Option.map_some', handleBodyWeight] at h2 ⊢
      (repeat' split at h2) <;> simp_all [accept, reject]
  | BODY_AGE =>
    rcases i with _ | t
    · exact absurd h2 h1
    · simp only [process, Option.map_some', handleBodyAge] at h2 ⊢
      (repeat' split at h2) <;> simp_all [accept, reject]
  | COMPLETE =>
    exact absurd h2 h1

/-- C1 (amended): along every conversation, `outfit_items_pending` goes from
non-empty to empty at most once; and at the step on which it becomes empty,
every name in `outfit_items_list` either already has a matching key in
`descriptions` or is the item held in `current_item` (the final item, whose
description is stored on the next accepted input). -/
theorem c1_pending_drain :
    (∀ is : List (Option Str), emptyTransitions initState is ≤ 1) ∧
    (∀ (is : List (Option Str)) (i : Option Str),
      (runState initState is).data.outfit_items_pending ≠ [] →
      (process (runState initState is) i).state.data.outfit_items_pending = [] →
      ∀ x ∈ (process (runState initState is) i).state.data.outfit_items_list,
        x ∈ keysOf (process (runState initState is) i).state.data.descriptions ∨
          (process (runState initState is) i).state.data.current_item = some x) :=
  ⟨fun is => emptyTransitions_le_one is initState,
    fun is i h1 h2 =>
      pending_empty_coverage (runState initState is) i (sessionInv_run is) h1 h2⟩

set_option maxRecDepth 200000 in
set_option maxHeartbeats 4000000 in
/-- Counterexample for C1 as frozen: after `outfit / casual / jeans, t-shirt /
daily`, describing `jeans` as `blue` empties `outfit_items_pending`, but at
that very moment `t-shirt` (the current item) has no key in `descriptions`
yet. -/
theorem c1_pending_drain_counterexample :
    (runState initState
        [none, some (str "outfit"), some (str "casual"),
          some (str "jeans, t-shirt"), some (str "daily")]).data.outfit_items_pending ≠ [] ∧
    (process (runState initState
        [none, some (str "outfit"), some (str "casual"),
          some (str "jeans, t-shirt"), some (str "daily")])
      (some (str "blue"))).state.data.outfit_items_pending = [] ∧
    str "t-shirt" ∈ (process (runState initState
        [none, some (str "outfit"), some (str "casual"),
          some (str "jeans, t-shirt"), some (str "daily")])
      (some (str "blue"))).state.data.outfit_items_list ∧
    str "t-shirt" ∉ keysOf (process (runState initState
        [none, some (str "outfit"), some (str "casual"),
          some (str "jeans, t-shirt"), some (str "daily")])
      (some (str "blue"))).state.data.descriptions :=
  ⟨by decide, by decide, by decide, by decide⟩

set_option maxRecDepth 200000 in
set_option maxHeartbeats 4000000 in
/-- Witness for C1 (amended) on the same concrete conversation: `jeans` is
covered by its `descriptions` key when the queue empties. -/
theorem c1_pending_drain_witness :
    emptyTransitions initState
      [none, some (str "outfit"), some (str "casual"), some (str "jeans, blazer"),
        some (str "daily"), some (str "blue")] ≤ 1 ∧
    (str "jeans" ∈ keysOf (process (runState initState
        [none, some (str "outfit"), some (str "casual"), some (str "jeans, blazer"),
          some (str "daily")])
      (some (str "blue"))).state.data.descriptions ∨
      (process (runState initState
        [none, some (str "outfit"), some (str "casual"), some (str "jeans, blazer"),
          some (str "daily")])
      (some (str "blue"))).state.data.current_item = some (str "jeans")) :=
  ⟨c1_pending_drain.1 _,
    c1_pending_drain.2
      [none, some (str "outfit"), some (str "casual"), some (str "jeans, blazer"),
        some (str "daily")]
      (some (str "blue")) (by decide) (by decide) (str "jeans") (by decide)⟩

set_option maxRecDepth 200000 in
set_option maxHeartbeats 4000000 in
/-- Witness for C10 at a concrete reachable OUTFIT_ITEM_DESC state. -/
theorem c10_pop_and_assert_safe_witness :
    (runState initState
        [none, some (str "outfit"), some (str "casual"), some (str "jeans, t-shirt"),
          some (str "daily")]).data.current_item ≠ none ∧
    (process (runState initState
        [none, some (str "outfit"), some (str "casual"), some (str "jeans, t-shirt"),
          some (str "daily")]) (some (str "blue"))).wouldCrash = false :=
  ⟨(c10_pop_and_assert_safe
      [none, some (str "outfit"), some (str "casual"), some (str "jeans, t-shirt"),
        some (str "daily")]).2.1 (by decide),
    (c10_pop_and_assert_safe
      [none, some (str "outfit"), some (str "casual"), some (str "jeans, t-shirt"),
        some (str "daily")]).2.2 (some (str "blue"))⟩

end RetailChatbot
